import Mathlib

/-!
Verification of the FreeSurfer GIFTI utilities (src/utils/gifti.cpp) against
their specification.  The C code is shallowly embedded: buffers of numeric
elements become lists of rationals (every value that actually flows through
these routines - float32/float64 payloads, small integers - is exactly
representable as a rational, and every widening conversion performed by the
code is exact on such values), raw `exit(1)` calls become `Except` errors,
and potentially non-terminating `while` loops are given a fuel parameter.
-/

namespace Gifti

/-- The NIFTI datatypes handled by the element accessors
(`gifti_get_DA_value_2D` / `gifti_set_DA_value_2D`, gifti.cpp).  `other`
stands for any datatype code outside the nine named ones (the switch
default). -/
inductive Datatype where
  | uint8 | int16 | int32 | float32 | float64 | complex64
  | int8 | uint16 | uint32
  | other (code : ℕ)
  deriving DecidableEq, Repr

/-- Array index order (`ind_ord`).  `unknown` stands for any code that is
neither `GIFTI_IND_ORD_ROW_MAJOR` nor `GIFTI_IND_ORD_COL_MAJOR`. -/
inductive IndOrd where
  | rowMajor | colMajor
  | unknown (code : ℕ)
  deriving DecidableEq, Repr

/-- Intent codes used by the read/write pipelines (`NIFTI_INTENT_*`).
`statOther` stands for the statistic intents and anything else that falls
into the final `else` branch of the read dispatch. -/
inductive Intent where
  | pointset | triangle | nodeIndex | shape | label | vector
  | rgbVector | rgbaVector | genmatrix | timeSeries | intentNone | normal
  | statOther (code : ℕ)
  deriving DecidableEq, Repr

/-- A GIFTI data array (`giiDataArray`), restricted to the fields the
element accessors and the mesh pipelines read: datatype, index order,
number of dimensions, the two dimension extents used (`dims[0]`,
`dims[1]`), the intent tag, and the flat data buffer.  The buffer is a
list of rationals standing for the numeric elements stored at consecutive
physical offsets. -/
structure DataArray where
  datatype : Datatype
  ind_ord : IndOrd
  num_dim : ℕ
  dims0 : ℕ
  dims1 : ℕ
  intent : Intent
  data : List ℚ
  deriving DecidableEq, Repr

/-- The error conditions surfaced by the accessors: bad parameters
(1-D array accessed with a nonzero column, or an unsupported number of
dimensions), an unknown index order, an out-of-range index, and an
unsupported datatype. -/
inductive GiftiError where
  | invalidAccess | unknownOrder | indexOutOfRange | unsupportedType
  deriving DecidableEq, Repr

deriving instance DecidableEq for Except

/-- Truncation of a rational toward zero, the semantics of a C cast from
`double` to an integer type (for in-range values).  `Int.div` is
truncated division. -/
def ratTrunc (q : ℚ) : ℤ := Int.tdiv q.num (q.den : ℤ)

/-- Wrap an integer into the unsigned `w`-bit range, modelling storage
into an unsigned C integer of width `w`. -/
def wrapU (w : ℕ) (n : ℤ) : ℤ := n % (Nat.pow 2 w : ℕ)

/-- Wrap an integer into the signed two's complement `w`-bit range,
modelling storage into a signed C integer of width `w`. -/
def wrapS (w : ℕ) (n : ℤ) : ℤ :=
  ((n + (Nat.pow 2 (w - 1) : ℕ)) % (Nat.pow 2 w : ℕ)) - (Nat.pow 2 (w - 1) : ℕ)

/-- Whether `gifti_get_DA_value_2D` supports a datatype: the nine named
kinds appear as switch cases; everything else hits the default and is
fatal. -/
def supportedGet : Datatype → Bool
  | .other _ => false
  | _ => true

/-- The narrowing conversion performed by each `gifti_set_DA_value_2D`
switch case on the incoming `double`: truncate-and-wrap for the six
integer kinds, exact for float32 (the values modelled are float32
representable).  `none` for the kinds that have no case in the set switch:
float64 and complex64 (absent from the source switch) and any unknown
code - these hit the default and the write is skipped. -/
def narrow : Datatype → ℚ → Option ℚ
  | .uint8, v => some ((wrapU 8 (ratTrunc v) : ℤ) : ℚ)
  | .int16, v => some ((wrapS 16 (ratTrunc v) : ℤ) : ℚ)
  | .int32, v => some ((wrapS 32 (ratTrunc v) : ℤ) : ℚ)
  | .float32, v => some v
  | .int8, v => some ((wrapS 8 (ratTrunc v) : ℤ) : ℚ)
  | .uint16, v => some ((wrapU 16 (ratTrunc v) : ℤ) : ℚ)
  | .uint32, v => some ((wrapU 32 (ratTrunc v) : ℤ) : ℚ)
  | _, _ => none

/-- `gifti_get_DA_value_2D(da, row, col)` (gifti.cpp lines 65-204).
Steps in source order: 1-D arrays demand `col == 0` and use `dims_1 = 1`;
arrays of any other dimensionality than 1 or 2 are fatal; the index pair
is kept as (row, col) for BOTH row-major and column-major order (the NJS
note: callers always pass the record index as `row`), unknown orders are
fatal; then the bounds check against (dims_0, dims_1); then the datatype
switch, whose default is fatal; the element at the physical offset
(`row*dims_1 + col` row-major, `row + col*dims_0` otherwise) is widened to
double, which is exact in this model. -/
def giftiGet (da : DataArray) (row col : ℕ) : Except GiftiError ℚ :=
  if da.num_dim = 1 ∧ col ≠ 0 then .error .invalidAccess
  else if da.num_dim ≠ 1 ∧ da.num_dim ≠ 2 then .error .invalidAccess
  else
    let dims_0 := da.dims0
    let dims_1 := if da.num_dim = 1 then 1 else da.dims1
    if da.ind_ord ≠ .rowMajor ∧ da.ind_ord ≠ .colMajor then .error .unknownOrder
    else
      let dim0_index := row
      let dim1_index := col
      if dim0_index ≥ dims_0 ∨ dim1_index ≥ dims_1 then .error .indexOutOfRange
      else if supportedGet da.datatype then
        let off := if da.ind_ord = .rowMajor then dim0_index * dims_1 + dim1_index
                   else dim0_index + dim1_index * dims_0
        .ok (da.data.getD off 0)
      else .error .unsupportedType

/-- Result of a set call that did not abort: the (possibly unchanged)
array, plus the diagnostic emitted when the write was skipped
(out-of-range index or unsupported datatype - both print and `return`
without touching the buffer). -/
structure SetResult where
  da : DataArray
  diag : Option GiftiError
  deriving DecidableEq, Repr

/-- `gifti_set_DA_value_2D(da, row, col, value)` (gifti.cpp lines
209-328).  Identical 1-D / dimensionality handling to the get side, but:
the index selection is an if/else on the order, so every order that is
not row-major - including column-major - SWAPS the pair to
(dim0, dim1) = (col, row) before the bounds check and the offset
computation; an out-of-range index prints and returns without modifying
the buffer; the datatype switch has cases only for uint8/int16/int32/
float32/int8/uint16/uint32 (no float64, no complex64), narrows the double
and stores at the physical offset; its default also prints and returns
without modifying the buffer. -/
def giftiSet (da : DataArray) (row col : ℕ) (value : ℚ) :
    Except GiftiError SetResult :=
  if da.num_dim = 1 ∧ col ≠ 0 then .error .invalidAccess
  else if da.num_dim ≠ 1 ∧ da.num_dim ≠ 2 then .error .invalidAccess
  else
    let dims_0 := da.dims0
    let dims_1 := if da.num_dim = 1 then 1 else da.dims1
    let dim0_index := if da.ind_ord = .rowMajor ∨ da.num_dim = 1 then row else col
    let dim1_index := if da.ind_ord = .rowMajor ∨ da.num_dim = 1 then col else row
    if dim0_index ≥ dims_0 ∨ dim1_index ≥ dims_1 then
      .ok ⟨da, some .indexOutOfRange⟩
    else
      match narrow da.datatype value with
      | none => .ok ⟨da, some .unsupportedType⟩
      | some w =>
        let off := if da.ind_ord = .rowMajor then dim0_index * dims_1 + dim1_index
                   else dim0_index + dim1_index * dims_0
        .ok ⟨{ da with data := da.data.set off w }, none⟩

/-- Modelled from the spec: a data array's metadata is a string-keyed
mapping with unique keys; `gifti_get_meta_value` (external container
library, out of scope) returns the value bound to a key, or NULL. -/
def metaLookup (meta : List (String × String)) (key : String) : Option String :=
  (meta.find? (fun p => p.1 == key)).map (fun p => p.2)

/-- Modelled from the spec: `gifti_add_to_meta(md, key, value, 1)`
(external container library) binds `key` to `value`, replacing an
existing binding of the same key. -/
def metaAdd (meta : List (String × String)) (key value : String) :
    List (String × String) :=
  if meta.any (fun p => p.1 == key) then
    meta.map (fun p => if p.1 == key then (key, value) else p)
  else meta ++ [(key, value)]

/-- Numeric value of a decimal digit character. -/
def digitVal (c : Char) : ℕ := c.toNat - 48

/-- Value of a list of decimal digit characters, most significant first. -/
def natOfDigits (ds : List Char) : ℕ :=
  ds.foldl (fun acc c => 10 * acc + digitVal c) 0

/-- Leading sign of a character list: the sign factor and the remaining
characters. -/
def readSign : List Char → ℤ × List Char
  | c :: rest =>
    if c = Char.ofNat 45 then (-1, rest)
    else if c = Char.ofNat 43 then (1, rest)
    else (1, c :: rest)
  | [] => (1, [])

/-- Model of `sscanf(s, "%d", &n)`: skip leading whitespace, optional
sign, then at least one decimal digit; `none` when no digits follow
(the conversion fails and sscanf returns 0). -/
def scanInt (s : String) : Option ℤ :=
  let cs := s.data.dropWhile (fun c => c.isWhitespace)
  let p := readSign cs
  let ds := p.2.takeWhile (fun c => c.isDigit)
  if ds.isEmpty then none else some (p.1 * (natOfDigits ds : ℤ))

/-- Model of `sscanf(s, "%f", &x)`: skip leading whitespace, optional
sign, digits with an optional fractional part (at least one digit in
total required), and an optional exponent (applied only when digits
follow the `e`; a dangling exponent marker is treated as trailing junk).
The value is returned as an exact rational; the float32 rounding the C
code performs on storage is not modelled, as only parse success feeds the
validity flag. -/
def scanFloat (s : String) : Option ℚ :=
  let cs := s.data.dropWhile (fun c => c.isWhitespace)
  let p := readSign cs
  let ipart := p.2.takeWhile (fun c => c.isDigit)
  let rest1 := p.2.dropWhile (fun c => c.isDigit)
  let fpart := match rest1 with
    | c :: r => if c = Char.ofNat 46 then r.takeWhile Char.isDigit else []
    | [] => []
  let rest2 := match rest1 with
    | c :: r => if c = Char.ofNat 46 then r.dropWhile Char.isDigit else rest1
    | [] => []
  if ipart.isEmpty && fpart.isEmpty then none
  else
    let mant : ℤ := p.1 * (natOfDigits (ipart ++ fpart) : ℤ)
    let flen := fpart.length
    match rest2 with
    | c :: r =>
      if c = Char.ofNat 101 ∨ c = Char.ofNat 69 then
        let ep := readSign r
        let eds := ep.2.takeWhile Char.isDigit
        if eds.isEmpty then some (Rat.divInt mant ((Nat.pow 10 flen : ℕ) : ℤ))
        else if ep.1 ≥ 0 then
          some (Rat.divInt (mant * ((Nat.pow 10 (natOfDigits eds) : ℕ) : ℤ))
            ((Nat.pow 10 flen : ℕ) : ℤ))
        else
          some (Rat.divInt mant ((Nat.pow 10 (flen + natOfDigits eds) : ℕ) : ℤ))
      else some (Rat.divInt mant ((Nat.pow 10 flen : ℕ) : ℤ))
    | [] => some (Rat.divInt mant ((Nat.pow 10 flen : ℕ) : ℤ))

/-- The volume geometry block of an MRIS (`mris->vg`, VOL_GEOM): the
18 scalar fields recovered from the coordinate array metadata, plus the
validity flag.  A freshly allocated surface has `valid = false`. -/
structure VolGeom where
  valid : Bool := false
  width : ℤ := 0
  height : ℤ := 0
  depth : ℤ := 0
  xsize : ℚ := 0
  ysize : ℚ := 0
  zsize : ℚ := 0
  x_r : ℚ := 0
  x_a : ℚ := 0
  x_s : ℚ := 0
  y_r : ℚ := 0
  y_a : ℚ := 0
  y_s : ℚ := 0
  z_r : ℚ := 0
  z_a : ℚ := 0
  z_s : ℚ := 0
  c_r : ℚ := 0
  c_a : ℚ := 0
  c_s : ℚ := 0
  deriving DecidableEq, Repr

/-- One block of the volume-geometry metadata scan
(mrisReadGIFTIdanum, gifti.cpp lines 577-659): the metadata key and the
parse-and-store action; the counter is incremented exactly when the key
is present and parses. -/
structure VGStep where
  key : String
  parse : String → Option (VolGeom → VolGeom)

/-- An integer (`%d`) volume-geometry block. -/
def vgIntStep (key : String) (upd : VolGeom → ℤ → VolGeom) : VGStep :=
  ⟨key, fun s => (scanInt s).map (fun n vg => upd vg n)⟩

/-- A float (`%f`) volume-geometry block. -/
def vgFloatStep (key : String) (upd : VolGeom → ℚ → VolGeom) : VGStep :=
  ⟨key, fun s => (scanFloat s).map (fun x vg => upd vg x)⟩

/-- The 18 volume-geometry blocks, in source order (gifti.cpp lines
578-654): width/height/depth as integers, then the three voxel sizes,
the nine direction cosines, and the three center coordinates as floats. -/
def vgSteps : List VGStep :=
  [ vgIntStep "VolGeomWidth" (fun vg n => { vg with width := n }),
    vgIntStep "VolGeomHeight" (fun vg n => { vg with height := n }),
    vgIntStep "VolGeomDepth" (fun vg n => { vg with depth := n }),
    vgFloatStep "VolGeomXsize" (fun vg x => { vg with xsize := x }),
    vgFloatStep "VolGeomYsize" (fun vg x => { vg with ysize := x }),
    vgFloatStep "VolGeomZsize" (fun vg x => { vg with zsize := x }),
    vgFloatStep "VolGeomX_R" (fun vg x => { vg with x_r := x }),
    vgFloatStep "VolGeomX_A" (fun vg x => { vg with x_a := x }),
    vgFloatStep "VolGeomX_S" (fun vg x => { vg with x_s := x }),
    vgFloatStep "VolGeomY_R" (fun vg x => { vg with y_r := x }),
    vgFloatStep "VolGeomY_A" (fun vg x => { vg with y_a := x }),
    vgFloatStep "VolGeomY_S" (fun vg x => { vg with y_s := x }),
    vgFloatStep "VolGeomZ_R" (fun vg x => { vg with z_r := x }),
    vgFloatStep "VolGeomZ_A" (fun vg x => { vg with z_a := x }),
    vgFloatStep "VolGeomZ_S" (fun vg x => { vg with z_s := x }),
    vgFloatStep "VolGeomC_R" (fun vg x => { vg with c_r := x }),
    vgFloatStep "VolGeomC_A" (fun vg x => { vg with c_a := x }),
    vgFloatStep "VolGeomC_S" (fun vg x => { vg with c_s := x }) ]

/-- One volume-geometry block applied to the (geometry, counter) state:
on a successful lookup-and-parse the field is stored and `vgvalid` is
incremented, otherwise the state is unchanged. -/
def vgApply (meta : List (String × String)) (st : VolGeom × ℕ) (step : VGStep) :
    VolGeom × ℕ :=
  match (metaLookup meta step.key).bind step.parse with
  | some f => (f st.1, st.2 + 1)
  | none => (st.1, st.2)

/-- The volume-geometry recovery of mrisReadGIFTIdanum (gifti.cpp lines
575-659): run the 18 blocks with `vgvalid` starting at 0, then mark the
geometry valid exactly when `vgvalid == 18`.  (The three SurfaceCenter
scans that follow in the source also increment the counter, but only
after the comparison, so they cannot influence the flag.) -/
def ingestVolGeom (meta : List (String × String)) (vg0 : VolGeom) : VolGeom :=
  let p := vgSteps.foldl (vgApply meta) (vg0, 0)
  if p.2 = 18 then { p.1 with valid := true } else p.1

/-- A surface vertex (`VERTEX`), restricted to the fields the GIFTI
pipelines touch: position, the scalar overlays (curv, val, stat), the
displacement vector, the packed annotation, and the rip/exclude flag.
A freshly allocated vertex is zeroed. -/
structure Vertex where
  x : ℚ := 0
  y : ℚ := 0
  z : ℚ := 0
  curv : ℚ := 0
  val : ℚ := 0
  stat : ℚ := 0
  dx : ℚ := 0
  dy : ℚ := 0
  dz : ℚ := 0
  annotation : ℤ := 0
  ripflag : Bool := false
  deriving DecidableEq, Repr

/-- The mesh model (`MRIS`), restricted to what the GIFTI pipelines read
and write: counts, per-vertex records, per-face vertex index triples, and
the per-vertex topology records (`vertices_topology[v].f`, the incident
face list, and `.n`, the face-local slot list).  Arrays are modelled as
functions from indices. -/
structure MRIS where
  nvertices : ℕ
  nfaces : ℕ
  vertices : ℕ → Vertex
  faces : ℕ → ℕ × ℕ × ℕ
  topoF : ℕ → List ℕ
  topoN : ℕ → List ℕ

/-- Corner `n` of a face's vertex index triple (`face->v[n]`). -/
def corner (fc : ℕ × ℕ × ℕ) : ℕ → ℕ
  | 0 => fc.1
  | 1 => fc.2.1
  | _ => fc.2.2

/-- The sparse-index SHAPE branch of mrisReadGIFTIdanum (gifti.cpp lines
943-955): for each position `nindex` of the node-index array, read the
target vertex number, skip the vertex when its rip flag is set, otherwise
store the shape value at `nindex` into the vertex's curv field.  A fatal
accessor error aborts the whole read (`none`).  The optional write into
the external multi-frame volume collaborator (`MRIsetVoxVal`) is out of
scope and not modelled. -/
def shapeSparseStep (node_index darray : DataArray) (nindex : ℕ) (m : MRIS) :
    Option MRIS :=
  match giftiGet node_index nindex 0 with
  | .error _ => none
  | .ok q =>
    let vno := (ratTrunc q).toNat
    if (m.vertices vno).ripflag then some m
    else
      match giftiGet darray nindex 0 with
      | .error _ => none
      | .ok c =>
        let vtx := { m.vertices vno with curv := c }
        some { m with vertices := Function.update m.vertices vno vtx }

/-- The `for (nindex = 0; nindex < num_index_nodes; nindex++)` loop of
the sparse SHAPE branch: process the first `n` node-index positions in
order. -/
def ingestShapeSparse (mris : MRIS) (node_index darray : DataArray) :
    ℕ → Option MRIS
  | 0 => some mris
  | n + 1 => (ingestShapeSparse mris node_index darray n).bind
      (shapeSparseStep node_index darray n)

/-- The `while (toskip) gifti_get_meta_value(&coords->meta,
"TAG_CMDLINE");` loop of the command-line-history recovery (gifti.cpp
lines 695-698).  The body is a pure metadata lookup and never modifies
`toskip`, so the whole loop state is `toskip` itself; the loop is given
fuel and exits normally only when the condition is false on entry. -/
def cmdSkipLoop : ℕ → ℕ → Option Unit
  | _, 0 => some ()
  | 0, _ + 1 => none
  | fuel + 1, toskip + 1 => cmdSkipLoop fuel (toskip + 1)

/-- The `for (ncmd = 0; ncmd < mris->ncmds; ncmd++)` tag-reading loop of
the command-line-history recovery (gifti.cpp lines 699-716): read
TAG_CMDLINE#<ncmd> for `remaining` consecutive positions starting at
`ncmd`, stopping early with a diagnostic when a tag is missing. -/
def readCmdLoop (meta : List (String × String)) : ℕ → ℕ → List String
  | _, 0 => []
  | ncmd, remaining + 1 =>
    match metaLookup meta ("TAG_CMDLINE#" ++ toString ncmd) with
    | none => []
    | some cmdline => cmdline :: readCmdLoop meta (ncmd + 1) remaining

/-- The stored command count: NUM_TAG_CMDLINE parsed with `%d`
(gifti.cpp lines 684-686); a fresh surface has `ncmds = 0` when the key
is absent or unparseable. -/
def cmdNcmds0 (meta : List (String × String)) : ℕ :=
  match (metaLookup meta "NUM_TAG_CMDLINE").bind scanInt with
  | some n => n.toNat
  | none => 0

/-- The capped command count (gifti.cpp lines 688-693): `MAX_CMDS` is
defined outside src/, so the cap is a parameter. -/
def cmdNcmds (meta : List (String × String)) (maxCmds : ℕ) : ℕ :=
  if cmdNcmds0 meta > maxCmds then maxCmds else cmdNcmds0 meta

/-- `toskip` of the command-line recovery (gifti.cpp line 695). -/
def cmdToskip (meta : List (String × String)) (maxCmds : ℕ) : ℕ :=
  if cmdNcmds0 meta > maxCmds then cmdNcmds0 meta - maxCmds else 0

/-- The TAG_CMDLINE recovery of mrisReadGIFTIdanum (gifti.cpp lines
682-717), fuel-bounded: parse NUM_TAG_CMDLINE, cap the count at `maxCmds`
with a warning, run the `while (toskip)` loop (whose body never
decrements `toskip`), then read the tags TAG_CMDLINE#0 ..
TAG_CMDLINE#(ncmds-1) in order.  `none` when the skip loop fails to
exit within the fuel. -/
def readCmdlines (meta : List (String × String)) (maxCmds fuel : ℕ) :
    Option (ℕ × List String) :=
  match cmdSkipLoop fuel (cmdToskip meta maxCmds) with
  | none => none
  | some _ => some (cmdNcmds meta maxCmds, readCmdLoop meta 0 (cmdNcmds meta maxCmds))

/-- The TAG_CMDLINE emission of MRISwriteGIFTISurface (gifti.cpp lines
2253-2269): when any commands are recorded, store their count under
NUM_TAG_CMDLINE and each command under TAG_CMDLINE#<n>, in order.  (The
snprintf length cap of 1023 characters is not modelled; commands are
stored verbatim.) -/
def writeCmdlineMeta (meta0 : List (String × String)) (cmdlines : List String) :
    List (String × String) :=
  if cmdlines.length = 0 then meta0
  else
    cmdlines.enum.foldl
      (fun meta p => metaAdd meta ("TAG_CMDLINE#" ++ toString p.1) p.2)
      (metaAdd meta0 "NUM_TAG_CMDLINE" (toString cmdlines.length))

/-- Eight recorded command lines: twice the cap used in the C5 scenario. -/
def cmdsC5 : List String :=
  ["cmd0", "cmd1", "cmd2", "cmd3", "cmd4", "cmd5", "cmd6", "cmd7"]

/-- The LABEL vertex loop of mrisReadGIFTIdanum (gifti.cpp lines
981-1039), fuel-bounded.  The loop state is (annotations, vno, nindex).
On entry the `while (vno < mris->nvertices)` condition is checked; in the
body, sparse storage reassigns `vno` from the node-index array, a ripped
vertex `continue`s WITHOUT advancing any loop variable, otherwise the
annotation computed from the data value at the current index is stored
and cross-checked (a failed cross-check aborts the read), and only then
is `nindex` (sparse) or `vno` (regular) advanced.  The key-to-annotation
computation and the cross-check live in the external color-table
collaborator and are parameters (`annotAt`, `crossOk`); the node-index
read is the in-bounds 1-D accessor read, modelled by `List.getD`. -/
def labelLoop (N : ℕ) (rip : ℕ → Bool) (sparse : Option (List ℕ))
    (numIndexNodes : ℕ) (annotAt : ℕ → ℤ) (crossOk : ℤ → Bool) :
    ℕ → (ℕ → ℤ) → ℕ → ℕ → Option (ℕ → ℤ)
  | 0, _, _, _ => none
  | fuel + 1, annots, vno, nindex =>
    if N ≤ vno then some annots
    else
      match sparse with
      | some ni =>
        let vno2 := ni.getD nindex 0
        if rip vno2 then
          labelLoop N rip sparse numIndexNodes annotAt crossOk fuel annots vno2 nindex
        else
          let annot := annotAt nindex
          if crossOk annot then
            if numIndexNodes ≤ nindex + 1 then
              some (Function.update annots vno2 annot)
            else
              labelLoop N rip sparse numIndexNodes annotAt crossOk fuel
                (Function.update annots vno2 annot) vno2 (nindex + 1)
          else none
      | none =>
        if rip vno then
          labelLoop N rip sparse numIndexNodes annotAt crossOk fuel annots vno nindex
        else
          let annot := annotAt vno
          if crossOk annot then
            labelLoop N rip sparse numIndexNodes annotAt crossOk fuel
              (Function.update annots vno annot) (vno + 1) nindex
          else none

/-- Rip flags for the C10 scenario: vertex 0 is ripped. -/
def ripC10 : ℕ → Bool := fun v => v == 0

/-- Modelled from the spec: `MRISRGBToAnnot` (mrisurf headers, not under
src/) packs the r, g, b bytes into one annotation code. -/
def rgbToAnnot (r g b : ℤ) : ℤ := r + 256 * g + 65536 * b

/-- `floor(x * 256)` computed on the numerator and denominator (the
denominator is positive, so floor division is the rational floor). -/
def floor256 (q : ℚ) : ℤ := Int.fdiv (q.num * 256) (q.den : ℤ)

/-- One colour component of the RGB/RGBA ingestion (gifti.cpp lines
1066-1092): a component greater than 1 is truncated to an int as a
pre-scaled byte, otherwise it is scaled by 256 and floored; the result
is clamped above at 255 (the source has no lower clamp). -/
def scaleComponent (x : ℚ) : ℤ :=
  let r := if x > 1 then ratTrunc x else floor256 x
  if r > 255 then 255 else r

/-- The RGB_VECTOR / RGBA_VECTOR branch of mrisReadGIFTIdanum (gifti.cpp
lines 1053-1096), processing the first `n` vertices: for each unripped
vertex the three colour components are read - the source reads COLUMN 0
for all three of red, green and blue (lines 1062-1064) - each is scaled
to a byte, and the triple is packed into the vertex's annotation.  A
fatal accessor error aborts the read. -/
def ingestRGB (mris : MRIS) (darray : DataArray) : ℕ → Option MRIS
  | 0 => some mris
  | n + 1 => (ingestRGB mris darray n).bind (fun m =>
      if (m.vertices n).ripflag then some m
      else
        match giftiGet darray n 0, giftiGet darray n 0, giftiGet darray n 0 with
        | .ok red, .ok green, .ok blue =>
          let r := scaleComponent red
          let g := scaleComponent green
          let b := scaleComponent blue
          let vtx := { m.vertices n with annotation := rgbToAnnot r g b }
          some { m with vertices := Function.update m.vertices n vtx }
        | _, _, _ => none)

/-- Concrete 1-vertex mesh for the RGB ingestion defect. -/
def mrisC6 : MRIS where
  nvertices := 1
  nfaces := 0
  vertices := fun _ => {}
  faces := fun _ => (0, 0, 0)
  topoF := fun _ => []
  topoN := fun _ => []

/-- Concrete RGB_VECTOR array with three distinct components. -/
def rgbC6 : DataArray := ⟨.float32, .rowMajor, 2, 1, 3, .rgbVector, [255, 128, 64]⟩

/-- The empty coordinates array allocated by MRISwriteGIFTISurface
(gifti.cpp lines 1890-2024): POINTSET intent, float32, row-major, 2-D
with dims (nvertices, 3), zeroed buffer (calloc).  The coordinate-system
attachment and metadata are outside this geometric fragment. -/
def emptyCoordsDA (n : ℕ) : DataArray :=
  ⟨.float32, .rowMajor, 2, n, 3, .pointset, List.replicate (n * 3) 0⟩

/-- The empty faces array allocated by MRISwriteGIFTISurface (gifti.cpp
lines 2040-2092): TRIANGLE intent, int32, row-major, 2-D with dims
(numFaces, 3), zeroed buffer. -/
def emptyFacesDA (nf : ℕ) : DataArray :=
  ⟨.int32, .rowMajor, 2, nf, 3, .triangle, List.replicate (nf * 3) 0⟩

/-- A write-side `gifti_set_DA_value_2D` call: the call site is void, so
a recoverable diagnostic is ignored, and the fatal exits kill the
process (`none`). -/
def trySet (da : DataArray) (row col : ℕ) (v : ℚ) : Option DataArray :=
  match giftiSet da row col v with
  | .error _ => none
  | .ok r => some r.da

/-- Three consecutive writes filling one row of a 3-column array. -/
def set3 (da : DataArray) (row : ℕ) (t : ℚ × ℚ × ℚ) : Option DataArray :=
  (trySet da row 0 t.1).bind (fun da1 =>
    (trySet da1 row 1 t.2.1).bind (fun da2 => trySet da2 row 2 t.2.2))

/-- The coordinate fill loop of MRISwriteGIFTISurface (gifti.cpp lines
2027-2035), over the first `n` vertices: ripped vertices are skipped
(their rows stay zero), every other vertex stores x, y, z at its own
row. -/
def fillCoords (mris : MRIS) : ℕ → Option DataArray
  | 0 => some (emptyCoordsDA mris.nvertices)
  | n + 1 => (fillCoords mris n).bind (fun da =>
      if (mris.vertices n).ripflag then some da
      else set3 da n ((mris.vertices n).x, (mris.vertices n).y, (mris.vertices n).z))

/-- Whether a face references a ripped vertex (gifti.cpp lines
2051-2060 and 2097-2106). -/
def faceRipped (mris : MRIS) (f : ℕ) : Bool :=
  (mris.vertices (corner (mris.faces f) 0)).ripflag ||
    (mris.vertices (corner (mris.faces f) 1)).ripflag ||
      (mris.vertices (corner (mris.faces f) 2)).ripflag

/-- The emitted face count (gifti.cpp lines 2047-2062): the faces whose
three vertices are all unripped. -/
def emitNumFaces (mris : MRIS) : ℕ :=
  ((List.range mris.nfaces).filter (fun f => !faceRipped mris f)).length

/-- The face fill loop of MRISwriteGIFTISurface (gifti.cpp lines
2094-2112), over the first `n` faces: faces referencing a ripped vertex
are skipped, the rest are written at consecutive rows counted by
`faceNum` (the first component of the state). -/
def fillFaces (mris : MRIS) : ℕ → ℕ × Option DataArray
  | 0 => (0, some (emptyFacesDA (emitNumFaces mris)))
  | n + 1 =>
    let p := fillFaces mris n
    if faceRipped mris n then p
    else (p.1 + 1, p.2.bind (fun da => set3 da p.1
      (((corner (mris.faces n) 0 : ℕ) : ℚ), ((corner (mris.faces n) 1 : ℕ) : ℚ),
        ((corner (mris.faces n) 2 : ℕ) : ℚ))))

/-- The geometric fragment of MRISwriteGIFTISurface: the filled
coordinates and faces arrays, in container order.  Metadata emission
(volume geometry, provenance) is modelled separately
(`writeCmdlineMeta`). -/
def emitSurface (mris : MRIS) : Option (DataArray × DataArray) :=
  (fillCoords mris mris.nvertices).bind (fun cda =>
    (fillFaces mris mris.nfaces).2.bind (fun fda => some (cda, fda)))

/-- Modelled from the spec: `gifti_DA_rows_cols` (external container
library) returns dims[0] and dims[1]. -/
def daRowsCols (da : DataArray) : ℕ × ℕ := (da.dims0, da.dims1)

/-- Rows and columns as the read pipeline computes them (gifti.cpp lines
505-512 and 525-532): row-major arrays use (dims0, dims1), column-major
ones the swap. -/
def readRowsCols (da : DataArray) : ℕ × ℕ :=
  if da.ind_ord = .rowMajor then daRowsCols da else (daRowsCols da).swap

/-- The coordinate/face classification scan of mrisReadGIFTIdanum
(gifti.cpp lines 486-496): the last POINTSET-intent array and the last
TRIANGLE-intent array win. -/
def findGeom (image : List DataArray) : Option DataArray × Option DataArray :=
  image.foldl (fun cf da =>
    if da.intent = .pointset then (some da, cf.2)
    else if da.intent = .triangle then (cf.1, some da) else cf)
    (none, none)

/-- One row triple read through the accessor (columns 0, 1, 2); a fatal
accessor error aborts the read. -/
def get3 (da : DataArray) (row : ℕ) : Option (ℚ × ℚ × ℚ) :=
  match giftiGet da row 0, giftiGet da row 1, giftiGet da row 2 with
  | .ok a, .ok b, .ok c => some (a, b, c)
  | _, _, _ => none

/-- The first `n` row triples, in row order. -/
def readTriples (da : DataArray) : ℕ → Option (List (ℚ × ℚ × ℚ))
  | 0 => some []
  | n + 1 => (readTriples da n).bind (fun l => (get3 da n).map (fun t => l ++ [t]))

/-- The per-vertex incident-face list derived by the read pipeline
(gifti.cpp lines 731-753): the counting pass and the fill pass both walk
the faces in order and the three corners in slot order, so vertex v
receives one entry per occurrence of v among the corners of each face,
in face order. -/
def deriveTopoF (nf : ℕ) (faces : ℕ → ℕ × ℕ × ℕ) (v : ℕ) : List ℕ :=
  (List.range nf).flatMap (fun f =>
    ((List.range 3).filter (fun n => corner (faces f) n = v)).map (fun _ => f))

/-- The face-local slot recorded for an incident face (gifti.cpp lines
754-763): every matching corner slot is written in turn into the same
cell, so the LAST matching slot wins (slot 0, from the calloc, when none
matches). -/
def lastSlot (fc : ℕ × ℕ × ℕ) (v : ℕ) : ℕ :=
  (List.range 3).foldl (fun acc m => if corner fc m = v then m else acc) 0

/-- The slot list parallel to an incident-face list. -/
def deriveTopoN (faces : ℕ → ℕ × ℕ × ℕ) (v : ℕ) (fl : List ℕ) : List ℕ :=
  fl.map (fun f => lastSlot (faces f) v)

/-- The three corners of a face are pairwise distinct (part of the
"valid geometry" precondition of the round-trip property). -/
def distinct3 (fc : ℕ × ℕ × ℕ) : Prop :=
  corner fc 0 ≠ corner fc 1 ∧ corner fc 0 ≠ corner fc 2 ∧
    corner fc 1 ≠ corner fc 2

/-- The face triple rebuilt from a read row: each component is the
`(int)` cast (truncation) of the widened stored value (gifti.cpp lines
732-740). -/
def readFaceFn (fts : List (ℚ × ℚ × ℚ)) (f : ℕ) : ℕ × ℕ × ℕ :=
  ((ratTrunc (fts.getD f (0, 0, 0)).1).toNat,
    (ratTrunc (fts.getD f (0, 0, 0)).2.1).toNat,
    (ratTrunc (fts.getD f (0, 0, 0)).2.2).toNat)

/-- The geometric fragment of mrisReadGIFTIdanum (gifti.cpp lines
486-806): find the coordinate and face arrays, validate their shapes
(positive row count, exactly 3 columns), allocate the surface, copy the
vertex positions ((float) casts of the widened float32 values, exact in
this model) and the face index triples ((int) casts, i.e. truncation),
and derive the per-vertex topology records.  Volume-geometry, provenance
and transform recovery are modelled separately. -/
def ingestGeom (coords faces : DataArray) : Option MRIS :=
  if (readRowsCols coords).1 = 0 ∨ (readRowsCols coords).2 ≠ 3 then none
  else if (readRowsCols faces).1 = 0 ∨ (readRowsCols faces).2 ≠ 3 then none
  else
    (readTriples coords (readRowsCols coords).1).bind (fun vts =>
      (readTriples faces (readRowsCols faces).1).bind (fun fts =>
        some { nvertices := (readRowsCols coords).1
               nfaces := (readRowsCols faces).1
               vertices := fun v =>
                 { x := (vts.getD v (0, 0, 0)).1
                   y := (vts.getD v (0, 0, 0)).2.1
                   z := (vts.getD v (0, 0, 0)).2.2 }
               faces := readFaceFn fts
               topoF := deriveTopoF (readRowsCols faces).1 (readFaceFn fts)
               topoN := fun v => deriveTopoN (readFaceFn fts) v
                 (deriveTopoF (readRowsCols faces).1 (readFaceFn fts) v) }))

/-- The geometric fragment of mrisReadGIFTIdanum as a whole: classify,
then build (a missing coordinate or face array yields no mesh here; the
caller-supplied-surface path is out of this fragment). -/
def ingestSurface (image : List DataArray) : Option MRIS :=
  (findGeom image).1.bind (fun coords =>
    (findGeom image).2.bind (fun faces => ingestGeom coords faces))

/-- Emission of a surface followed by ingestion of the resulting
container fragment. -/
def surfaceRoundTrip (mris : MRIS) : Option MRIS :=
  (emitSurface mris).bind (fun p => ingestSurface [p.1, p.2])

/-- Concrete tetrahedron-like mesh for the round-trip witness: 4
vertices, 2 faces. -/
def mrisC1 : MRIS where
  nvertices := 4
  nfaces := 2
  vertices := fun v =>
    if v = 1 then { x := 1 } else if v = 2 then { y := 1 }
    else if v = 3 then { z := 1 } else {}
  faces := fun f => if f = 0 then (0, 1, 2) else (0, 2, 3)
  topoF := fun v => if v = 0 then [0, 1] else if v = 1 then [0]
    else if v = 2 then [0, 1] else if v = 3 then [1] else []
  topoN := fun v => if v = 0 then [0, 0] else if v = 1 then [1]
    else if v = 2 then [2, 1] else if v = 3 then [2] else []

/-- A colour table entry (`COLOR_TABLE_ENTRY`): name, float colour
components in [0,1], integer colour components. -/
structure CTE where
  name : String
  rf : ℚ := 0
  gf : ℚ := 0
  bf : ℚ := 0
  af : ℚ := 0
  ri : ℤ := 0
  gi : ℤ := 0
  bi : ℤ := 0
  ai : ℤ := 0
  deriving DecidableEq, Repr

/-- A GIFTI label table (`giiLabelTable`): parallel key and name
sequences and a flat rgba array holding four floats per entry. -/
structure GiiLabelTable where
  length : ℕ
  key : List ℤ
  label : List String
  rgba : List ℚ
  deriving DecidableEq, Repr

/-- The name stored for entry `idx` by MRISwriteGIFTILabel (gifti.cpp
lines 1772-1781): the entry's own name, or the synthesized
`unknown_<idx>` (with a diagnostic) when the name is empty. -/
def labelTableName (idx : ℕ) (e : CTE) : String :=
  if e.name.length ≠ 0 then e.name else "unknown_" ++ toString idx

/-- The rgba quadruple stored for entry `idx` by MRISwriteGIFTILabel
(gifti.cpp lines 1783-1794): fully transparent when the entry's name is
empty or the stored label reads "unknown" or "Unknown" (case-sensitive,
both forms), otherwise the entry's float colour with alpha 1. -/
def labelTableRGBA (idx : ℕ) (e : CTE) : List ℚ :=
  if e.name.length = 0 ∨ labelTableName idx e = "unknown" ∨
      labelTableName idx e = "Unknown" then
    [0, 0, 0, 0]
  else [e.rf, e.gf, e.bf, 1]

/-- The LabelTable construction of MRISwriteGIFTILabel (gifti.cpp lines
1744-1809): an empty colour table is an error; otherwise each entry `idx`
gets key `idx` (the table index, deliberately not the packed annotation),
the stored name, and the rgba quadruple appended to the flat rgba array
(the `rgba += 4` pointer walk). -/
def buildLabelTable (entries : List CTE) : Option GiiLabelTable :=
  if entries.length = 0 then none
  else some
    { length := entries.length
      key := entries.enum.map (fun p => (p.1 : ℤ))
      label := entries.enum.map (fun p => labelTableName p.1 p.2)
      rgba := entries.enum.flatMap (fun p => labelTableRGBA p.1 p.2) }

/-- Concrete colour table: an "unknown" entry, a named entry, and an
empty-named entry. -/
def ctabC9 : List CTE :=
  [{ name := "unknown" },
   { name := "A", rf := Rat.divInt 1 2, gf := Rat.divInt 1 4, bf := 1 },
   { name := "" }]

/-- Concrete 4-vertex mesh (vertex 2 ripped) for the sparse SHAPE frame
property. -/
def mrisC4 : MRIS where
  nvertices := 4
  nfaces := 0
  vertices := fun v => if v = 2 then { ripflag := true } else {}
  faces := fun _ => (0, 0, 0)
  topoF := fun _ => []
  topoN := fun _ => []

/-- Concrete node-index array listing vertices 1 and 2. -/
def niC4 : DataArray := ⟨.int32, .rowMajor, 1, 2, 0, .nodeIndex, [1, 2]⟩

/-- Concrete SHAPE array for the 4-vertex mesh. -/
def shC4 : DataArray := ⟨.float32, .rowMajor, 1, 4, 0, .shape, [10, 20, 30, 40]⟩

/-- Concrete column-major 2x3 float32 array used to exhibit the get/set
asymmetry of the accessor pair. -/
def daColMajor23 : DataArray :=
  ⟨.float32, .colMajor, 2, 2, 3, .intentNone, [0, 0, 0, 0, 0, 0]⟩

/-- Concrete column-major 1x2 float32 array used to exhibit the write-side
boundary behaviour at `row == dims0`. -/
def daColMajor12 : DataArray :=
  ⟨.float32, .colMajor, 2, 1, 2, .intentNone, [0, 0]⟩

/-- Concrete 1-D float64 array used to exhibit the missing float64 case of
the set switch. -/
def daFloat64 : DataArray :=
  ⟨.float64, .rowMajor, 1, 1, 0, .intentNone, [0]⟩

/-- Concrete coordinate-array metadata carrying all 18 volume-geometry
fields. -/
def vgMetaExample : List (String × String) :=
  [("VolGeomWidth", "256"), ("VolGeomHeight", "256"), ("VolGeomDepth", "256"),
   ("VolGeomXsize", "1.000000"), ("VolGeomYsize", "1.000000"),
   ("VolGeomZsize", "1.000000"),
   ("VolGeomX_R", "-1.000000"), ("VolGeomX_A", "0.000000"),
   ("VolGeomX_S", "0.000000"),
   ("VolGeomY_R", "0.000000"), ("VolGeomY_A", "0.000000"),
   ("VolGeomY_S", "-1.000000"),
   ("VolGeomZ_R", "0.000000"), ("VolGeomZ_A", "1.000000"),
   ("VolGeomZ_S", "0.000000"),
   ("VolGeomC_R", "-0.5"), ("VolGeomC_A", "17.5"), ("VolGeomC_S", "20.0")]

end Gifti

namespace Gifti

/-- C2 (counterexample): the claim is false for the write side.  On the
column-major 2x3 array, a set at logical (row, col) = (0, 1) does NOT
write at the claimed physical offset row + col*dims0 = 0 + 1*2 = 2; it
writes at offset col + row*dims0 = 1, because `gifti_set_DA_value_2D`
swaps the pair to (dim0, dim1) = (col, row) for column-major arrays. -/
theorem setColMajorOffsetCounterexample :
    giftiSet daColMajor23 0 1 7 ≠
      .ok ⟨{ daColMajor23 with data := daColMajor23.data.set (0 + 1 * 2) 7 }, none⟩ ∧
    giftiSet daColMajor23 0 1 7 =
      .ok ⟨{ daColMajor23 with data := daColMajor23.data.set (1 + 0 * 2) 7 }, none⟩ := by
  constructor
  · decide
  · decide

/-- C2 (amended): for a 2-D array, get maps logical (row, col) to physical
offset row*dims1 + col when row-major and row + col*dims0 when
column-major, with the caller supplying the record index as row in both
orders.  Set agrees on row-major arrays, but on column-major arrays it
swaps the pair first: it bounds-checks col against dims0 and row against
dims1, and writes at physical offset col + row*dims0. -/
theorem typedAccessor2DMapping (da : DataArray) (row col : ℕ) (v w : ℚ)
    (h2 : da.num_dim = 2) (hget : supportedGet da.datatype = true)
    (hnarrow : narrow da.datatype v = some w) :
    (da.ind_ord = .rowMajor → row < da.dims0 → col < da.dims1 →
      giftiGet da row col = .ok (da.data.getD (row * da.dims1 + col) 0) ∧
      giftiSet da row col v =
        .ok ⟨{ da with data := da.data.set (row * da.dims1 + col) w }, none⟩) ∧
    (da.ind_ord = .colMajor →
      (row < da.dims0 → col < da.dims1 →
        giftiGet da row col = .ok (da.data.getD (row + col * da.dims0) 0)) ∧
      (col < da.dims0 → row < da.dims1 →
        giftiSet da row col v =
          .ok ⟨{ da with data := da.data.set (col + row * da.dims0) w }, none⟩)) := by
  refine ⟨fun hord hr hc => ?_, fun hord => ⟨fun hr hc => ?_, fun hc hr => ?_⟩⟩
  · constructor
    · simp [giftiGet, h2, hord, hget, Nat.not_lt.mpr, hr, hc, Nat.not_le.mpr]
    · simp [giftiSet, h2, hord, hnarrow, hr, hc, Nat.not_le.mpr]
  · simp [giftiGet, h2, hord, hget, hr, hc, Nat.not_le.mpr]
  · simp [giftiSet, h2, hord, hnarrow, hr, hc, Nat.not_le.mpr]

/-- C2 (witness): the amended mapping evaluated on the concrete
column-major 2x3 array at logical (0, 1). -/
theorem typedAccessor2DMapping_witness :
    giftiGet daColMajor23 0 1 = .ok (daColMajor23.data.getD (0 + 1 * daColMajor23.dims0) 0) ∧
    giftiSet daColMajor23 0 1 7 =
      .ok ⟨{ daColMajor23 with data := daColMajor23.data.set (1 + 0 * daColMajor23.dims0) 7 }, none⟩ := by
  have h := (typedAccessor2DMapping daColMajor23 0 1 7 7 rfl rfl rfl).2 rfl
  exact ⟨h.1 (by decide) (by decide), h.2 (by decide) (by decide)⟩

/-- C3 (counterexample): the claim is false for the write side.  On the
column-major 1x2 array, a set at row = dims0 = 1, col = 0 is NOT a no-op:
the swapped bounds check (col against dims0, row against dims1) passes,
and the buffer is modified at offset col + row*dims0 = 1. -/
theorem setRowEqDims0Counterexample :
    giftiSet daColMajor12 1 0 5 ≠ .ok ⟨daColMajor12, some .indexOutOfRange⟩ ∧
    giftiSet daColMajor12 1 0 5 =
      .ok ⟨{ daColMajor12 with data := [0, 5] }, none⟩ := by
  constructor
  · decide
  · decide

/-- C3 (amended): an access at row = dims0 always fails with
IndexOutOfRange on the read side (for any well-formed 1-D or 2-D array of
either order, with the column in bounds).  On the write side it is a no-op
leaving the buffer unchanged, with an IndexOutOfRange diagnostic, whenever
the array is 1-D or row-major; for a column-major 2-D array the swapped
check compares row against dims1 instead, so the write proceeds and
modifies the buffer whenever col < dims0 and dims0 < dims1 (offset
col + dims0*dims0). -/
theorem boundaryRowEqDims0 (da : DataArray) (col : ℕ) (v : ℚ)
    (hdim : da.num_dim = 1 ∨ da.num_dim = 2)
    (hord : da.ind_ord = .rowMajor ∨ da.ind_ord = .colMajor)
    (hcol : col < (if da.num_dim = 1 then 1 else da.dims1)) :
    giftiGet da da.dims0 col = .error .indexOutOfRange ∧
    (da.ind_ord = .rowMajor ∨ da.num_dim = 1 →
      giftiSet da da.dims0 col v = .ok ⟨da, some .indexOutOfRange⟩) ∧
    (da.ind_ord = .colMajor → da.num_dim = 2 → col < da.dims0 → da.dims0 < da.dims1 →
      ∀ w, narrow da.datatype v = some w →
        giftiSet da da.dims0 col v =
          .ok ⟨{ da with data := da.data.set (col + da.dims0 * da.dims0) w }, none⟩) := by
  refine ⟨?_, fun hro => ?_, fun hco h2 hc hlt w hw => ?_⟩
  · rcases hdim with h1 | h2
    · have hc0 : col = 0 := by
        rw [if_pos h1] at hcol; omega
      rcases hord with ho | ho <;>
        simp [giftiGet, h1, hc0, ho]
    · rw [if_neg (by omega)] at hcol
      rcases hord with ho | ho <;>
        simp [giftiGet, h2, ho, hcol, Nat.not_le.mpr]
  · rcases hro with ho | h1
    · rcases hdim with h1 | h2
      · have hc0 : col = 0 := by
          rw [if_pos h1] at hcol; omega
        simp [giftiSet, h1, hc0, ho]
      · simp [giftiSet, h2, ho]
    · have hc0 : col = 0 := by
        rw [if_pos h1] at hcol; omega
      simp [giftiSet, h1, hc0]
  · have hne : da.ind_ord ≠ .rowMajor := by rw [hco]; decide
    simp [giftiSet, h2, hco, hne, hc, hlt, hw, Nat.not_le.mpr]

/-- C3 (witness): the amended boundary behaviour evaluated on the
column-major 1x2 array (read side and the column-major write-through
case), plus the no-op case on a row-major array. -/
theorem boundaryRowEqDims0_witness :
    giftiGet daColMajor12 1 0 = .error .indexOutOfRange ∧
    giftiSet daColMajor12 1 0 5 =
      .ok ⟨{ daColMajor12 with data := daColMajor12.data.set (0 + 1 * 1) 5 }, none⟩ := by
  have h := boundaryRowEqDims0 daColMajor12 0 5 (Or.inr rfl) (Or.inr rfl) (by decide)
  exact ⟨h.1, h.2.2 rfl rfl (by decide) (by decide) 5 rfl⟩

/-- C7 (counterexample): the claim is false for the write side.  On a
1-D float64 array, a set hits the default of the datatype switch (which
has no float64 case): it emits an UnsupportedType diagnostic and leaves
the buffer unchanged instead of narrowing and storing the value. -/
theorem setFloat64Counterexample :
    giftiSet daFloat64 0 0 5 = .ok ⟨daFloat64, some .unsupportedType⟩ ∧
    giftiSet daFloat64 0 0 5 ≠ .ok ⟨{ daFloat64 with data := [5] }, none⟩ := by
  constructor
  · decide
  · decide

/-- C7 (amended): on the read side all 9 declared element kinds are
supported (widening to double, exact in this model), and a read fails with
UnsupportedType exactly when the element kind is outside the 9.  On the
write side only 7 kinds are supported (float64 and complex64 have no case
in the set switch): for those 7 the double is narrowed (truncated) and
stored; for float64, complex64 and everything outside the 9 the set is a
no-op with an UnsupportedType diagnostic. -/
theorem typedAccessorKindDispatch (da : DataArray) (row col : ℕ) (v : ℚ)
    (h2 : da.num_dim = 2) (hord : da.ind_ord = .rowMajor)
    (hrow : row < da.dims0) (hcol : col < da.dims1) :
    (supportedGet da.datatype = true →
      giftiGet da row col = .ok (da.data.getD (row * da.dims1 + col) 0)) ∧
    ((∀ c, da.datatype ≠ .other c) ↔ supportedGet da.datatype = true) ∧
    (∀ c, da.datatype = .other c → giftiGet da row col = .error .unsupportedType) ∧
    (da.datatype = .float64 ∨ da.datatype = .complex64 ∨ (∃ c, da.datatype = .other c) →
      giftiSet da row col v = .ok ⟨da, some .unsupportedType⟩) ∧
    (da.datatype ≠ .float64 → da.datatype ≠ .complex64 → (∀ c, da.datatype ≠ .other c) →
      ∃ w, narrow da.datatype v = some w ∧
        giftiSet da row col v =
          .ok ⟨{ da with data := da.data.set (row * da.dims1 + col) w }, none⟩) := by
  refine ⟨fun hget => ?_, ?_, fun c hc => ?_, fun hbad => ?_, fun hf hc ho => ?_⟩
  · simp [giftiGet, h2, hord, hget, hrow, hcol, Nat.not_le.mpr]
  · cases hdt : da.datatype <;> simp [supportedGet]
  · simp [giftiGet, h2, hord, hc, supportedGet, hrow, hcol, Nat.not_le.mpr]
  · have hn : narrow da.datatype v = none := by
      rcases hbad with h | h | ⟨c, h⟩ <;> simp [h, narrow]
    simp [giftiSet, h2, hord, hn, hrow, hcol, Nat.not_le.mpr]
  · have hn : (narrow da.datatype v).isSome = true := by
      cases hdt : da.datatype <;> first
        | rfl
        | exact absurd hdt hf
        | exact absurd hdt hc
        | exact absurd hdt (ho _)
    obtain ⟨w, hw⟩ := Option.isSome_iff_exists.mp hn
    have hsg : supportedGet da.datatype = true := by
      cases hdt : da.datatype <;> first
        | rfl
        | exact absurd hdt (ho _)
    exact ⟨w, hw, ((typedAccessor2DMapping da row col v w h2 hsg hw).1 hord hrow hcol).2⟩

/-- Helper: binding an option into a mapped parser succeeds exactly when
binding it into the parser itself does. -/
theorem bind_map_isSome {α β γ : Type} (o : Option α) (f : α → Option β)
    (g : β → γ) : (o.bind (fun a => (f a).map g)).isSome = (o.bind f).isSome := by
  cases o with
  | none => rfl
  | some a => simp

/-- Helper: the counter threaded through the volume-geometry fold counts
exactly the blocks whose lookup-and-parse succeeds. -/
theorem vgFold_count (meta : List (String × String)) (l : List VGStep) :
    ∀ (vg : VolGeom) (c : ℕ),
      (l.foldl (vgApply meta) (vg, c)).2 =
        c + l.countP (fun st => ((metaLookup meta st.key).bind st.parse).isSome) := by
  induction l with
  | nil => intro vg c; simp
  | cons st l ih =>
    intro vg c
    rcases h : (metaLookup meta st.key).bind st.parse with _ | f <;>
      simp [vgApply, h, ih, List.countP_cons] <;> omega

/-- Helper: no volume-geometry block writes the validity flag. -/
theorem vgSteps_preserve_valid :
    ∀ st ∈ vgSteps, ∀ (s : String) (f : VolGeom → VolGeom),
      st.parse s = some f → ∀ vg, (f vg).valid = vg.valid := by
  intro st hst s f hf vg
  fin_cases hst <;>
    (simp only [vgIntStep, vgFloatStep, Option.map_eq_some'] at hf
     obtain ⟨a, ha, rfl⟩ := hf
     rfl)

/-- Helper: the volume-geometry fold leaves the validity flag alone. -/
theorem vgFold_valid (meta : List (String × String)) (l : List VGStep)
    (hl : ∀ st ∈ l, ∀ (s : String) (f : VolGeom → VolGeom),
      st.parse s = some f → ∀ vg, (f vg).valid = vg.valid) :
    ∀ (vg : VolGeom) (c : ℕ),
      ((l.foldl (vgApply meta) (vg, c)).1).valid = vg.valid := by
  induction l with
  | nil => intro vg c; simp
  | cons st l ih =>
    intro vg c
    have hst := hl st (List.mem_cons_self st l)
    have hrest : ∀ st ∈ l, ∀ (s : String) (f : VolGeom → VolGeom),
        st.parse s = some f → ∀ vg, (f vg).valid = vg.valid :=
      fun st2 h2 => hl st2 (List.mem_cons_of_mem st h2)
    rcases h : (metaLookup meta st.key).bind st.parse with _ | f
    · simpa [vgApply, h] using ih hrest vg c
    · have hv : (f vg).valid = vg.valid := by
        rcases ho : metaLookup meta st.key with _ | s
        · rw [ho] at h; simp at h
        · rw [ho] at h; exact hst s f h vg
      simpa [vgApply, h, hv] using (ih hrest (f vg) (c + 1)).trans hv

/-- C8: on ingesting a surface, the volume geometry is marked valid
exactly when all 18 named volume-geometry metadata fields on the
coordinates array (width/height/depth as integers; the three voxel
sizes, nine direction cosines and three center coordinates as floats)
are present and parse as numbers; if any of the 18 is missing or
unparseable, the geometry keeps the fresh surface's invalid flag. -/
theorem volumeGeometryValidIffAll18 (meta : List (String × String))
    (vg0 : VolGeom) (h0 : vg0.valid = false) :
    ((ingestVolGeom meta vg0).valid = true ↔
      ((∀ k ∈ ["VolGeomWidth", "VolGeomHeight", "VolGeomDepth"],
          ((metaLookup meta k).bind scanInt).isSome = true) ∧
       (∀ k ∈ ["VolGeomXsize", "VolGeomYsize", "VolGeomZsize",
               "VolGeomX_R", "VolGeomX_A", "VolGeomX_S",
               "VolGeomY_R", "VolGeomY_A", "VolGeomY_S",
               "VolGeomZ_R", "VolGeomZ_A", "VolGeomZ_S",
               "VolGeomC_R", "VolGeomC_A", "VolGeomC_S"],
          ((metaLookup meta k).bind scanFloat).isSome = true))) := by
  have hcount := vgFold_count meta vgSteps vg0 0
  have hvalid := vgFold_valid meta vgSteps vgSteps_preserve_valid vg0 0
  have hiff : (ingestVolGeom meta vg0).valid = true ↔
      vgSteps.countP
        (fun st => ((metaLookup meta st.key).bind st.parse).isSome) = 18 := by
    unfold ingestVolGeom
    by_cases h : (vgSteps.foldl (vgApply meta) (vg0, 0)).2 = 18
    · simp only [h, if_pos rfl]
      constructor
      · intro _; omega
      · intro _; rfl
    · rw [if_neg h]
      rw [hcount] at h
      constructor
      · intro hv; rw [hvalid] at hv; rw [h0] at hv; exact absurd hv (by simp)
      · intro hc; omega
  rw [hiff]
  have hlen : vgSteps.countP
      (fun st => ((metaLookup meta st.key).bind st.parse).isSome) = 18 ↔
      ∀ st ∈ vgSteps, ((metaLookup meta st.key).bind st.parse).isSome = true := by
    have : vgSteps.countP
        (fun st => ((metaLookup meta st.key).bind st.parse).isSome) =
          vgSteps.length ↔
        ∀ st ∈ vgSteps,
          ((metaLookup meta st.key).bind st.parse).isSome = true :=
      List.countP_eq_length
    constructor
    · intro hc
      exact this.mp (by rw [hc]; rfl)
    · intro hall
      rw [this.mpr hall]; rfl
  rw [hlen]
  simp only [vgSteps, vgIntStep, vgFloatStep, List.forall_mem_cons,
    List.forall_mem_nil, bind_map_isSome, and_true]
  tauto

/-- C8 (witness): on concrete metadata carrying all 18 fields the
geometry comes out valid. -/
theorem volumeGeometryValidIffAll18_witness :
    (ingestVolGeom vgMetaExample {}).valid = true :=
  (volumeGeometryValidIffAll18 vgMetaExample {} rfl).mpr (by decide)

/-- Helper: a 1-D element read through the accessor is the buffer element
at the row offset, for either valid order. -/
theorem giftiGet_1D (da : DataArray) (row : ℕ) (h1 : da.num_dim = 1)
    (ht : supportedGet da.datatype = true)
    (hord : da.ind_ord = .rowMajor ∨ da.ind_ord = .colMajor)
    (hr : row < da.dims0) :
    giftiGet da row 0 = .ok (da.data.getD row 0) := by
  rcases hord with h | h <;> simp [giftiGet, h1, h, ht, hr, Nat.not_le.mpr]

/-- Helper: membership in a prefix is monotone in the prefix length. -/
theorem mem_take_of_le {α : Type} {l : List α} {v : α} {a b : ℕ} (hab : a ≤ b)
    (h : v ∈ l.take a) : v ∈ l.take b := by
  obtain ⟨i, hi, hv⟩ := List.getElem_of_mem h
  rw [List.length_take] at hi
  have hib : i < (l.take b).length := by rw [List.length_take]; omega
  have hv2 : (l.take b)[i] = v := by
    rw [List.getElem_take]; rw [List.getElem_take] at hv; exact hv
  rw [← hv2]; exact List.getElem_mem hib

/-- Helper: the element at position `j` belongs to the prefix of length
`j + 1`. -/
theorem getD_mem_take {l : List ℕ} {j : ℕ} (hj : j < l.length) :
    l.getD j 0 ∈ l.take (j + 1) := by
  have hjt : j < (l.take (j + 1)).length := by rw [List.length_take]; omega
  have hv : (l.take (j + 1))[j] = l.getD j 0 := by
    rw [List.getElem_take, List.getD_eq_getElem l 0 hj]
  rw [← hv]; exact List.getElem_mem hjt

/-- Helper: in a duplicate-free list, the element at position `j` is not
among the first `j` elements. -/
theorem getD_not_mem_take {l : List ℕ} (h : l.Nodup) {j : ℕ}
    (hj : j < l.length) : l.getD j 0 ∉ l.take j := by
  intro hmem
  obtain ⟨i, hi, hEq⟩ := List.getElem_of_mem hmem
  rw [List.length_take] at hi
  have hil : i < l.length := by omega
  rw [List.getElem_take, List.getD_eq_getElem l 0 hj] at hEq
  have hij : (⟨i, hil⟩ : Fin l.length) = ⟨j, hj⟩ :=
    List.nodup_iff_injective_getElem.mp h (by simpa using hEq)
  have : i = j := by simpa using hij
  omega

/-- Helper: distinct positions of a duplicate-free list hold distinct
values. -/
theorem nodup_getD_ne {l : List ℕ} (h : l.Nodup) {i j : ℕ}
    (hi : i < l.length) (hj : j < l.length) (hne : i ≠ j) :
    l.getD i 0 ≠ l.getD j 0 := by
  intro hEq
  rw [List.getD_eq_getElem l 0 hi, List.getD_eq_getElem l 0 hj] at hEq
  have hij2 : (⟨i, hi⟩ : Fin l.length) = ⟨j, hj⟩ :=
    List.nodup_iff_injective_getElem.mp h (by simpa using hEq)
  have : i = j := by simpa using hij2
  omega

/-- Helper: truncating the widened copy of a vertex number recovers it. -/
theorem ratTrunc_natCast (n : ℕ) : (ratTrunc ((n : ℕ) : ℚ)).toNat = n := by
  simp [ratTrunc, Rat.num_natCast, Rat.den_natCast, Int.tdiv_one]

/-- Helper (invariant of the sparse SHAPE loop): after the first `kk`
node-index positions, the fold has succeeded, every vertex not among the
first `kk` listed ones is untouched, and each of the first `kk` listed
vertices is either untouched (ripped) or has exactly its curv field
replaced by the shape value at its list position. -/
theorem ingestShapeSparse_take (mris : MRIS) (ni sh : DataArray)
    (idxs : List ℕ) (k : ℕ)
    (hk : ni.dims0 = k) (hkl : idxs.length = k)
    (hni1 : ni.num_dim = 1) (hnit : supportedGet ni.datatype = true)
    (hniord : ni.ind_ord = .rowMajor ∨ ni.ind_ord = .colMajor)
    (hdata : ni.data = idxs.map (Nat.cast : ℕ → ℚ))
    (hsh1 : sh.num_dim = 1) (hsht : supportedGet sh.datatype = true)
    (hshord : sh.ind_ord = .rowMajor ∨ sh.ind_ord = .colMajor)
    (hshd : k ≤ sh.dims0) (hnodup : idxs.Nodup) :
    ∀ kk, kk ≤ k → ∃ m, ingestShapeSparse mris ni sh kk = some m ∧
      (∀ v, v ∉ idxs.take kk → m.vertices v = mris.vertices v) ∧
      (∀ j, j < kk →
        ((mris.vertices (idxs.getD j 0)).ripflag = true →
          m.vertices (idxs.getD j 0) = mris.vertices (idxs.getD j 0)) ∧
        ((mris.vertices (idxs.getD j 0)).ripflag = false →
          m.vertices (idxs.getD j 0) =
            { mris.vertices (idxs.getD j 0) with curv := sh.data.getD j 0 })) := by
  intro kk
  induction kk with
  | zero =>
    intro _
    exact ⟨mris, rfl, fun v _ => rfl, fun j hj => absurd hj (by omega)⟩
  | succ kk ih =>
    intro hkk
    obtain ⟨m, hm, ha, hb⟩ := ih (by omega)
    have hknl : kk < idxs.length := by omega
    have hgetni : giftiGet ni kk 0 = .ok ((idxs.getD kk 0 : ℕ) : ℚ) := by
      rw [giftiGet_1D ni kk hni1 hnit hniord (by omega)]
      congr 1
      rw [hdata]
      rw [show (0 : ℚ) = ((0 : ℕ) : ℚ) by norm_num, List.getD_map]
    have hgetsh : giftiGet sh kk 0 = .ok (sh.data.getD kk 0) :=
      giftiGet_1D sh kk hsh1 hsht hshord (by omega)
    have hmv : m.vertices (idxs.getD kk 0) = mris.vertices (idxs.getD kk 0) :=
      ha _ (getD_not_mem_take hnodup hknl)
    have hsplit : ∀ v, v ∉ idxs.take (kk + 1) →
        v ∉ idxs.take kk ∧ v ≠ idxs.getD kk 0 := by
      intro v hv
      constructor
      · intro hin; exact hv (mem_take_of_le (by omega) hin)
      · intro hEq; exact hv (hEq ▸ getD_mem_take hknl)
    have hstep : ingestShapeSparse mris ni sh (kk + 1) =
        shapeSparseStep ni sh kk m := by
      rw [ingestShapeSparse, hm, Option.some_bind]
    cases hr : (mris.vertices (idxs.getD kk 0)).ripflag with
    | true =>
      refine ⟨m, ?_, ?_, ?_⟩
      · rw [hstep]
        unfold shapeSparseStep
        rw [hgetni]
        simp only [ratTrunc_natCast, hmv, hr, if_pos]
      · intro v hv; exact ha v (hsplit v hv).1
      · intro j hj
        by_cases hjk : j < kk
        · exact hb j hjk
        · have hjEq : j = kk := by omega
          subst hjEq
          exact ⟨fun _ => hmv, fun hf => absurd hr (by rw [hf]; simp)⟩
    | false =>
      refine ⟨{ m with vertices := Function.update m.vertices (idxs.getD kk 0) ⟨(m.vertices (idxs.getD kk 0)).x, (m.vertices (idxs.getD kk 0)).y, (m.vertices (idxs.getD kk 0)).z, sh.data.getD kk 0, (m.vertices (idxs.getD kk 0)).val, (m.vertices (idxs.getD kk 0)).stat, (m.vertices (idxs.getD kk 0)).dx, (m.vertices (idxs.getD kk 0)).dy, (m.vertices (idxs.getD kk 0)).dz, Vertex.annotation (m.vertices (idxs.getD kk 0)), (m.vertices (idxs.getD kk 0)).ripflag⟩ }, ?_, ?_, ?_⟩
      · rw [hstep]
        unfold shapeSparseStep
        rw [hgetni]
        simp only [ratTrunc_natCast, hmv, hr, if_neg, Bool.false_eq_true,
          not_false_iff, hgetsh]
      · intro v hv
        obtain ⟨hv1, hv2⟩ := hsplit v hv
        simp only [Function.update_noteq hv2]
        exact ha v hv1
      · intro j hj
        by_cases hjk : j < kk
        · have hne : idxs.getD j 0 ≠ idxs.getD kk 0 :=
            nodup_getD_ne hnodup (by omega) hknl (by omega)
          constructor
          · intro ht
            simp only [Function.update_noteq hne]
            exact (hb j hjk).1 ht
          · intro hf
            simp only [Function.update_noteq hne]
            exact (hb j hjk).2 hf
        · have hjEq : j = kk := by omega
          subst hjEq
          constructor
          · intro ht; exact absurd hr (by rw [ht]; simp)
          · intro _
            simp only [Function.update_same, hmv]

/-- C4: for a mesh with N vertices and a sparse node index of length
k ≤ N listing a strict subset of the vertices without duplicates, the
sparse SHAPE ingestion touches the curv field of exactly the listed,
unripped vertices (each receiving the shape value at its list position,
all other fields kept), leaves each listed ripped vertex untouched, and
leaves every vertex not listed in the sparse index entirely untouched. -/
theorem sparseShapeFrameEffect (mris : MRIS) (ni sh : DataArray)
    (idxs : List ℕ) (k : ℕ)
    (hk : ni.dims0 = k) (hkl : idxs.length = k)
    (hni1 : ni.num_dim = 1) (hnit : supportedGet ni.datatype = true)
    (hniord : ni.ind_ord = .rowMajor ∨ ni.ind_ord = .colMajor)
    (hdata : ni.data = idxs.map (Nat.cast : ℕ → ℚ))
    (hsh1 : sh.num_dim = 1) (hsht : supportedGet sh.datatype = true)
    (hshord : sh.ind_ord = .rowMajor ∨ sh.ind_ord = .colMajor)
    (hshd : k ≤ sh.dims0) (hnodup : idxs.Nodup)
    (hkN : k ≤ mris.nvertices) (hbound : ∀ i ∈ idxs, i < mris.nvertices) :
    ∃ m, ingestShapeSparse mris ni sh k = some m ∧
      (∀ v, v ∉ idxs → m.vertices v = mris.vertices v) ∧
      (∀ j, j < k →
        ((mris.vertices (idxs.getD j 0)).ripflag = true →
          m.vertices (idxs.getD j 0) = mris.vertices (idxs.getD j 0)) ∧
        ((mris.vertices (idxs.getD j 0)).ripflag = false →
          m.vertices (idxs.getD j 0) =
            { mris.vertices (idxs.getD j 0) with curv := sh.data.getD j 0 })) := by
  obtain ⟨m, hm, ha, hb⟩ := ingestShapeSparse_take mris ni sh idxs k hk hkl
    hni1 hnit hniord hdata hsh1 hsht hshord hshd hnodup k (le_refl k)
  refine ⟨m, hm, ?_, hb⟩
  intro v hv
  refine ha v ?_
  rw [← hkl, List.take_length]
  exact hv

/-- C4 (witness): the sparse SHAPE frame effect evaluated on the concrete
4-vertex mesh with node index [1, 2] (vertex 2 ripped): vertex 1 receives
shape value 10, vertex 2 and the unlisted vertices 0 and 3 are untouched. -/
theorem sparseShapeFrameEffect_witness :
    ∃ m, ingestShapeSparse mrisC4 niC4 shC4 2 = some m ∧
      (∀ v, v ∉ [1, 2] → m.vertices v = mrisC4.vertices v) ∧
      (∀ j, j < 2 →
        ((mrisC4.vertices ([1, 2].getD j 0)).ripflag = true →
          m.vertices ([1, 2].getD j 0) = mrisC4.vertices ([1, 2].getD j 0)) ∧
        ((mrisC4.vertices ([1, 2].getD j 0)).ripflag = false →
          m.vertices ([1, 2].getD j 0) =
            { mrisC4.vertices ([1, 2].getD j 0) with
                curv := shC4.data.getD j 0 })) :=
  sparseShapeFrameEffect mrisC4 niC4 shC4 [1, 2] 2 rfl rfl rfl rfl
    (Or.inl rfl) (by decide) rfl rfl (Or.inl rfl) (by decide)
    (by decide) (by decide) (by decide)

/-- Helper: the command-line skip loop never exits when `toskip` starts
positive, because its body never changes the state. -/
theorem cmdSkipLoop_stuck : ∀ (fuel t : ℕ), cmdSkipLoop fuel (t + 1) = none := by
  intro fuel
  induction fuel with
  | zero => intro t; rfl
  | succ fuel ih => intro t; exact ih t

/-- C5: the command-line-history cap is never applied.  With 8 recorded
commands emitted and a cap of 4, ingestion parses NUM_TAG_CMDLINE = 8,
computes toskip = 4 and enters `while (toskip)
gifti_get_meta_value(...)`, whose body never decrements `toskip`; for
every fuel bound the loop is still running, so the read hangs instead of
retaining the most recent 4 entries. -/
theorem cmdlineCapDiverges :
    ∀ fuel, readCmdlines (writeCmdlineMeta [] cmdsC5) 4 fuel = none := by
  intro fuel
  have hts : cmdToskip (writeCmdlineMeta [] cmdsC5) 4 = 3 + 1 := by decide
  unfold readCmdlines
  rw [hts, cmdSkipLoop_stuck]

/-- C10: ingestion does not terminate on every input.  With a LABEL
array under regular indexing and vertex 0 ripped, the vertex loop's
`continue` skips the `vno++`, so the loop state repeats forever (for
every fuel bound the loop is still running); the command-line skip loop
likewise never exits whenever the stored count exceeds the cap. -/
theorem ingestReadNontermination :
    (∀ fuel, ∀ annots : ℕ → ℤ,
      labelLoop 4 ripC10 none 0 (fun _ => 1) (fun _ => true) fuel annots 0 0 =
        none) ∧
    (∀ fuel toskip, 0 < toskip → cmdSkipLoop fuel toskip = none) := by
  constructor
  · intro fuel
    induction fuel with
    | zero => intro annots; rfl
    | succ fuel ih =>
      intro annots
      show labelLoop 4 ripC10 none 0 (fun _ => 1) (fun _ => true)
        (fuel + 1) annots 0 0 = none
      rw [labelLoop]
      simp only [ripC10]
      rw [if_neg (by omega)]
      exact ih annots
  · intro fuel toskip h
    match toskip, h with
    | t + 1, _ => exact cmdSkipLoop_stuck fuel t

/-- Helper: reading back a just-written element. -/
theorem getD_set_self_q (l : List ℚ) (i : ℕ) (a : ℚ) (h : i < l.length) :
    (l.set i a).getD i 0 = a := by
  rw [List.getD_eq_getElem?_getD, List.getElem?_set_self h]
  rfl

/-- Helper: a write does not change other elements. -/
theorem getD_set_ne_q (l : List ℚ) {i j : ℕ} (a : ℚ) (h : i ≠ j) :
    (l.set i a).getD j 0 = l.getD j 0 := by
  rw [List.getD_eq_getElem?_getD, List.getElem?_set_ne h,
    ← List.getD_eq_getElem?_getD]

/-- Helper: an in-bounds 2-D row-major read through the accessor. -/
theorem giftiGet_rowMajor (da : DataArray) (row col : ℕ)
    (h2 : da.num_dim = 2) (hord : da.ind_ord = .rowMajor)
    (ht : supportedGet da.datatype = true)
    (hr : row < da.dims0) (hc : col < da.dims1) :
    giftiGet da row col = .ok (da.data.getD (row * da.dims1 + col) 0) := by
  simp [giftiGet, h2, hord, ht, hr, hc, Nat.not_le.mpr]

/-- Helper: an in-bounds 2-D row-major write through the accessor. -/
theorem giftiSet_rowMajor (da : DataArray) (row col : ℕ) (v w : ℚ)
    (h2 : da.num_dim = 2) (hord : da.ind_ord = .rowMajor)
    (hn : narrow da.datatype v = some w)
    (hr : row < da.dims0) (hc : col < da.dims1) :
    giftiSet da row col v =
      .ok ⟨{ da with data := da.data.set (row * da.dims1 + col) w }, none⟩ := by
  simp [giftiSet, h2, hord, hn, hr, hc, Nat.not_le.mpr]

/-- Helper: filling one row of a 3-column row-major array whose datatype
narrows the three values exactly. -/
theorem set3_ok (da : DataArray) (row : ℕ) (t : ℚ × ℚ × ℚ)
    (h2 : da.num_dim = 2) (hord : da.ind_ord = .rowMajor) (h3 : da.dims1 = 3)
    (hr : row < da.dims0)
    (hn1 : narrow da.datatype t.1 = some t.1)
    (hn2 : narrow da.datatype t.2.1 = some t.2.1)
    (hn3 : narrow da.datatype t.2.2 = some t.2.2) :
    set3 da row t = some { da with data := ((da.data.set (row * 3) t.1).set (row * 3 + 1) t.2.1).set (row * 3 + 2) t.2.2 } := by
  obtain ⟨dt, io, nd, d0, d1, it, data⟩ := da
  simp only at h2 hord h3 hr hn1 hn2 hn3
  subst h2
  subst hord
  subst h3
  unfold set3 trySet
  rw [giftiSet_rowMajor ⟨dt, .rowMajor, 2, d0, 3, it, data⟩ row 0 t.1 t.1
    rfl rfl hn1 hr (by norm_num)]
  simp only [Option.some_bind]
  rw [giftiSet_rowMajor _ row 1 t.2.1 t.2.1 rfl rfl hn2 hr (by norm_num)]
  simp only [Option.some_bind]
  rw [giftiSet_rowMajor _ row 2 t.2.2 t.2.2 rfl rfl hn3 hr (by norm_num)]
  simp

/-- Helper: casting a vertex index into the int32 buffer and back is the
identity for meshes within the int32 range. -/
theorem narrow_int32_natCast (k : ℕ) (hk : k < 2 ^ 31) :
    narrow .int32 ((k : ℕ) : ℚ) = some ((k : ℕ) : ℚ) := by
  have h1 : ratTrunc ((k : ℕ) : ℚ) = (k : ℤ) := by
    simp [ratTrunc, Rat.num_natCast, Rat.den_natCast, Int.tdiv_one]
  show some ((wrapS 32 (ratTrunc ((k : ℕ) : ℚ)) : ℤ) : ℚ) = some ((k : ℕ) : ℚ)
  rw [h1]
  have h2 : wrapS 32 (k : ℤ) = (k : ℤ) := by
    unfold wrapS
    rw [show (Nat.pow 2 (32 - 1) : ℕ) = 2147483648 from rfl,
      show (Nat.pow 2 32 : ℕ) = 4294967296 from rfl]
    have hk2 : (k : ℤ) < 2147483648 := by
      have : (2 : ℤ) ^ 31 = 2147483648 := by norm_num
      exact_mod_cast (by exact_mod_cast hk : (k : ℤ) < (2 : ℤ) ^ 31).trans_eq this
    have hk0 : 0 ≤ (k : ℤ) := Int.natCast_nonneg k
    omega
  rw [h2]
  norm_num

/-- Helper (invariant of the coordinate fill loop): with no ripped
vertices, after the first `n` vertices the coordinates buffer holds each
written vertex's x, y, z at its row, with the array attributes of the
freshly allocated coordinates array. -/
theorem fillCoords_spec (mris : MRIS)
    (hnr : ∀ v, v < mris.nvertices → (mris.vertices v).ripflag = false) :
    ∀ n, n ≤ mris.nvertices → ∃ D : List ℚ,
      fillCoords mris n = some { emptyCoordsDA mris.nvertices with data := D } ∧
      D.length = mris.nvertices * 3 ∧
      ∀ v, v < n →
        D.getD (v * 3) 0 = (mris.vertices v).x ∧
        D.getD (v * 3 + 1) 0 = (mris.vertices v).y ∧
        D.getD (v * 3 + 2) 0 = (mris.vertices v).z := by
  intro n
  induction n with
  | zero =>
    intro _
    exact ⟨List.replicate (mris.nvertices * 3) 0, rfl,
      List.length_replicate _ _, fun v hv => absurd hv (by omega)⟩
  | succ n ih =>
    intro hn1
    obtain ⟨D, hD, hlen, hchar⟩ := ih (by omega)
    have hstep : fillCoords mris (n + 1) = (fillCoords mris n).bind (fun da =>
        if (mris.vertices n).ripflag then some da
        else set3 da n ((mris.vertices n).x, (mris.vertices n).y,
          (mris.vertices n).z)) := rfl
    rw [hstep, hD, Option.some_bind, if_neg (by rw [hnr n (by omega)]; simp)]
    rw [set3_ok { emptyCoordsDA mris.nvertices with data := D } n
      ((mris.vertices n).x, (mris.vertices n).y, (mris.vertices n).z)
      rfl rfl rfl (by show n < mris.nvertices; omega) rfl rfl rfl]
    refine ⟨((D.set (n * 3) (mris.vertices n).x).set (n * 3 + 1)
      (mris.vertices n).y).set (n * 3 + 2) (mris.vertices n).z, rfl,
      by simp [List.length_set, hlen], ?_⟩
    intro v hv
    by_cases hvn : v < n
    · obtain ⟨hx, hy, hz⟩ := hchar v hvn
      refine ⟨?_, ?_, ?_⟩ <;>
        rw [getD_set_ne_q _ _ (by omega), getD_set_ne_q _ _ (by omega),
          getD_set_ne_q _ _ (by omega)]
      · exact hx
      · exact hy
      · exact hz
    · have hveq : v = n := by omega
      subst hveq
      have hl1 : (D.set (v * 3) (mris.vertices v).x).length = mris.nvertices * 3 := by
        rw [List.length_set, hlen]
      have hl2 : ((D.set (v * 3) (mris.vertices v).x).set (v * 3 + 1)
          (mris.vertices v).y).length = mris.nvertices * 3 := by
        rw [List.length_set, hl1]
      refine ⟨?_, ?_, ?_⟩
      · rw [getD_set_ne_q _ _ (by omega), getD_set_ne_q _ _ (by omega),
          getD_set_self_q _ _ _ (by rw [hlen]; omega)]
      · rw [getD_set_ne_q _ _ (by omega),
          getD_set_self_q _ _ _ (by rw [hl1]; omega)]
      · rw [getD_set_self_q _ _ _ (by rw [hl2]; omega)]

/-- Helper: with no ripped vertices, no face is skipped. -/
theorem faceRipped_false (mris : MRIS)
    (hnr : ∀ v, v < mris.nvertices → (mris.vertices v).ripflag = false)
    (hfb : ∀ f, f < mris.nfaces → ∀ s, s < 3 →
      corner (mris.faces f) s < mris.nvertices)
    (f : ℕ) (hf : f < mris.nfaces) : faceRipped mris f = false := by
  unfold faceRipped
  rw [hnr _ (hfb f hf 0 (by omega)), hnr _ (hfb f hf 1 (by omega)),
    hnr _ (hfb f hf 2 (by omega))]
  rfl

/-- Helper: with no ripped vertices, the emitted face count is the face
count. -/
theorem emitNumFaces_eq (mris : MRIS)
    (hnr : ∀ v, v < mris.nvertices → (mris.vertices v).ripflag = false)
    (hfb : ∀ f, f < mris.nfaces → ∀ s, s < 3 →
      corner (mris.faces f) s < mris.nvertices) :
    emitNumFaces mris = mris.nfaces := by
  unfold emitNumFaces
  rw [List.filter_eq_self.mpr ?_]
  · exact List.length_range mris.nfaces
  · intro a ha
    rw [List.mem_range] at ha
    rw [faceRipped_false mris hnr hfb a ha]
    rfl

/-- Helper (invariant of the face fill loop): with no ripped vertices and
in-range vertex indices, after the first `n` faces the running face
counter equals `n` and the faces buffer holds each face's three corner
indices (as exactly stored int32 values) at its row. -/
theorem fillFaces_spec (mris : MRIS)
    (hnr : ∀ v, v < mris.nvertices → (mris.vertices v).ripflag = false)
    (hfb : ∀ f, f < mris.nfaces → ∀ s, s < 3 →
      corner (mris.faces f) s < mris.nvertices)
    (hsize : mris.nvertices ≤ 2 ^ 31) :
    ∀ n, n ≤ mris.nfaces → (fillFaces mris n).1 = n ∧ ∃ E : List ℚ,
      (fillFaces mris n).2 = some { emptyFacesDA (emitNumFaces mris) with data := E } ∧
      E.length = emitNumFaces mris * 3 ∧
      ∀ f, f < n →
        E.getD (f * 3) 0 = ((corner (mris.faces f) 0 : ℕ) : ℚ) ∧
        E.getD (f * 3 + 1) 0 = ((corner (mris.faces f) 1 : ℕ) : ℚ) ∧
        E.getD (f * 3 + 2) 0 = ((corner (mris.faces f) 2 : ℕ) : ℚ) := by
  have hnf := emitNumFaces_eq mris hnr hfb
  intro n
  induction n with
  | zero =>
    intro _
    exact ⟨rfl, List.replicate (emitNumFaces mris * 3) 0, rfl,
      List.length_replicate _ _, fun f hf => absurd hf (by omega)⟩
  | succ n ih =>
    intro hn1
    obtain ⟨hcnt, E, hE, hlen, hchar⟩ := ih (by omega)
    have hstep : fillFaces mris (n + 1) =
        (if faceRipped mris n then fillFaces mris n
         else ((fillFaces mris n).1 + 1, (fillFaces mris n).2.bind
           (fun da => set3 da (fillFaces mris n).1
             (((corner (mris.faces n) 0 : ℕ) : ℚ),
               ((corner (mris.faces n) 1 : ℕ) : ℚ),
                 ((corner (mris.faces n) 2 : ℕ) : ℚ))))) := rfl
    rw [hstep, if_neg (by rw [faceRipped_false mris hnr hfb n (by omega)]; simp)]
    rw [hcnt, hE]
    simp only [Option.some_bind]
    rw [set3_ok { emptyFacesDA (emitNumFaces mris) with data := E } n
      (((corner (mris.faces n) 0 : ℕ) : ℚ), ((corner (mris.faces n) 1 : ℕ) : ℚ),
        ((corner (mris.faces n) 2 : ℕ) : ℚ))
      rfl rfl rfl (by show n < emitNumFaces mris; rw [hnf]; omega)
      (narrow_int32_natCast _ (by have := hfb n (by omega) 0 (by omega); omega))
      (narrow_int32_natCast _ (by have := hfb n (by omega) 1 (by omega); omega))
      (narrow_int32_natCast _ (by have := hfb n (by omega) 2 (by omega); omega))]
    refine ⟨by trivial, ((E.set (n * 3) _).set (n * 3 + 1) _).set (n * 3 + 2) _,
      by trivial, by simp [List.length_set, hlen], ?_⟩
    intro f hf
    by_cases hfn : f < n
    · obtain ⟨hx, hy, hz⟩ := hchar f hfn
      refine ⟨?_, ?_, ?_⟩ <;>
        rw [getD_set_ne_q _ _ (by omega), getD_set_ne_q _ _ (by omega),
          getD_set_ne_q _ _ (by omega)]
      · exact hx
      · exact hy
      · exact hz
    · have hfeq : f = n := by omega
      subst hfeq
      have hfd : f * 3 + 2 < emitNumFaces mris * 3 := by rw [hnf]; omega
      have hl1 : (E.set (f * 3) ((corner (mris.faces f) 0 : ℕ) : ℚ)).length =
          emitNumFaces mris * 3 := by rw [List.length_set, hlen]
      have hl2 : ((E.set (f * 3) ((corner (mris.faces f) 0 : ℕ) : ℚ)).set (f * 3 + 1)
          ((corner (mris.faces f) 1 : ℕ) : ℚ)).length = emitNumFaces mris * 3 := by
        rw [List.length_set, hl1]
      refine ⟨?_, ?_, ?_⟩
      · rw [getD_set_ne_q _ _ (by omega), getD_set_ne_q _ _ (by omega),
          getD_set_self_q _ _ _ (by rw [hlen]; omega)]
      · rw [getD_set_ne_q _ _ (by omega),
          getD_set_self_q _ _ _ (by rw [hl1]; omega)]
      · rw [getD_set_self_q _ _ _ (by rw [hl2]; omega)]

/-- Helper: reading the first n triples of an array whose rows all read
back. -/
theorem readTriples_spec (da : DataArray) (g : ℕ → ℚ × ℚ × ℚ) :
    ∀ n, (∀ i, i < n → get3 da i = some (g i)) →
      readTriples da n = some ((List.range n).map g) := by
  intro n
  induction n with
  | zero => intro _; rfl
  | succ n ih =>
    intro h
    have hstep : readTriples da (n + 1) = (readTriples da n).bind
        (fun l => (get3 da n).map (fun t => l ++ [t])) := rfl
    rw [hstep, ih (fun i hi => h i (by omega)), Option.some_bind, h n (by omega),
      List.range_succ, List.map_append]
    rfl

/-- Helper: an element of a map over a range. -/
theorem getD_range_map {β : Type} (g : ℕ → β) (n i : ℕ) (hi : i < n) (d : β) :
    ((List.range n).map g).getD i d = g i := by
  have h1 : i < ((List.range n).map g).length := by
    rw [List.length_map, List.length_range]; exact hi
  rw [List.getD_eq_getElem _ _ h1, List.getElem_map, List.getElem_range]

/-- Helper: membership in the zip of a list with its image. -/
theorem mem_zip_map_self {α β : Type} (l : List α) (g : α → β) (a : α) (b : β) :
    (a, b) ∈ l.zip (l.map g) ↔ a ∈ l ∧ b = g a := by
  induction l with
  | nil => simp
  | cons x xs ih =>
    simp only [List.map_cons, List.zip_cons_cons, List.mem_cons, Prod.mk.injEq, ih]
    constructor
    · rintro (⟨rfl, rfl⟩ | ⟨hmem, rfl⟩)
      · exact ⟨Or.inl rfl, rfl⟩
      · exact ⟨Or.inr hmem, rfl⟩
    · rintro ⟨rfl | hmem, rfl⟩
      · exact Or.inl ⟨rfl, rfl⟩
      · exact Or.inr ⟨hmem, rfl⟩

/-- Helper: membership in the derived incident-face list. -/
theorem mem_deriveTopoF (nf : ℕ) (faces : ℕ → ℕ × ℕ × ℕ) (v f : ℕ) :
    f ∈ deriveTopoF nf faces v ↔ f < nf ∧ ∃ s, s < 3 ∧ corner (faces f) s = v := by
  unfold deriveTopoF
  rw [List.mem_flatMap]
  constructor
  · rintro ⟨a, ha, hmem⟩
    rw [List.mem_range] at ha
    rw [List.mem_map] at hmem
    obtain ⟨s, hs, rfl⟩ := hmem
    rw [List.mem_filter, List.mem_range] at hs
    exact ⟨ha, s, hs.1, by simpa using hs.2⟩
  · rintro ⟨hf, s, hs, hc⟩
    refine ⟨f, List.mem_range.mpr hf, List.mem_map.mpr ⟨s, ?_, rfl⟩⟩
    rw [List.mem_filter, List.mem_range]
    exact ⟨hs, by simp [hc]⟩

/-- Helper: for a face with pairwise distinct corners, the recorded slot
is the unique matching one. -/
theorem lastSlot_eq (fc : ℕ × ℕ × ℕ) (v : ℕ) (hd : distinct3 fc) (s : ℕ)
    (hs : s < 3) (hv : corner fc s = v) : lastSlot fc v = s := by
  obtain ⟨h01, h02, h12⟩ := hd
  have hls : lastSlot fc v =
      (if corner fc 2 = v then 2 else if corner fc 1 = v then 1
       else if corner fc 0 = v then 0 else 0) := rfl
  interval_cases s
  · rw [hls, if_neg (by rw [← hv]; exact fun h => h02 h.symm),
      if_neg (by rw [← hv]; exact fun h => h01 h.symm), if_pos hv]
  · rw [hls, if_neg (by rw [← hv]; exact fun h => h12 h.symm), if_pos hv]
  · rw [hls, if_pos hv]

/-- Helper: the (face, slot) pairs recorded by the derived topology are
exactly the in-range incidences, for faces with distinct corners. -/
theorem deriveTopo_pair_mem (nf : ℕ) (faces : ℕ → ℕ × ℕ × ℕ)
    (hdist : ∀ f, f < nf → distinct3 (faces f)) (v f s : ℕ) :
    ((f, s) ∈ (deriveTopoF nf faces v).zip
      (deriveTopoN faces v (deriveTopoF nf faces v))) ↔
      (f < nf ∧ s < 3 ∧ corner (faces f) s = v) := by
  unfold deriveTopoN
  rw [mem_zip_map_self, mem_deriveTopoF]
  constructor
  · rintro ⟨⟨hf, s0, hs0, hc0⟩, rfl⟩
    rw [lastSlot_eq (faces f) v (hdist f hf) s0 hs0 hc0]
    exact ⟨hf, hs0, hc0⟩
  · rintro ⟨hf, hs, hc⟩
    exact ⟨⟨hf, s, hs, hc⟩, (lastSlot_eq (faces f) v (hdist f hf) s hs hc).symm⟩

/-- Helper: a face triple is its corner list. -/
theorem corner_eta (fc : ℕ × ℕ × ℕ) :
    (corner fc 0, corner fc 1, corner fc 2) = fc := by
  rcases fc with ⟨a, b, c⟩
  rfl

/-- C1: for a mesh with valid geometry (positive counts, in-range face
corners, pairwise distinct corners per face, vertex count within int32)
and no ripped vertices, whose topology records satisfy the incidence
invariant (each vertex's (face, slot) pairs are exactly the faces
referencing it with the referencing slot), emitting the surface
(MRISwriteGIFTISurface) and ingesting the result (mrisReadGIFTIdanum)
reproduces the vertex positions and face index triples exactly (float32
values are modelled exactly) and rebuilds the identical per-vertex
topology: every vertex's set of (incident face, face-local slot) pairs
is unchanged. -/
theorem surfaceRoundTripReproduces (M : MRIS)
    (hN : 0 < M.nvertices) (hF : 0 < M.nfaces)
    (hnr : ∀ v, v < M.nvertices → (M.vertices v).ripflag = false)
    (hfb : ∀ f, f < M.nfaces → ∀ s, s < 3 → corner (M.faces f) s < M.nvertices)
    (hsize : M.nvertices ≤ 2 ^ 31)
    (hdist : ∀ f, f < M.nfaces → distinct3 (M.faces f))
    (htopo : ∀ v, v < M.nvertices → ∀ f s : ℕ,
      ((f, s) ∈ (M.topoF v).zip (M.topoN v) ↔
        f < M.nfaces ∧ s < 3 ∧ corner (M.faces f) s = v)) :
    ∃ M2, surfaceRoundTrip M = some M2 ∧
      M2.nvertices = M.nvertices ∧ M2.nfaces = M.nfaces ∧
      (∀ v, v < M.nvertices →
        (M2.vertices v).x = (M.vertices v).x ∧
        (M2.vertices v).y = (M.vertices v).y ∧
        (M2.vertices v).z = (M.vertices v).z) ∧
      (∀ f, f < M.nfaces → M2.faces f = M.faces f) ∧
      (∀ v, v < M.nvertices → ∀ f s : ℕ,
        ((f, s) ∈ (M2.topoF v).zip (M2.topoN v) ↔
          (f, s) ∈ (M.topoF v).zip (M.topoN v))) := by
  obtain ⟨D, hD, hDlen, hDchar⟩ := fillCoords_spec M hnr M.nvertices (le_refl _)
  obtain ⟨hcnt, E, hE, hElen, hEchar⟩ :=
    fillFaces_spec M hnr hfb hsize M.nfaces (le_refl _)
  have hnf := emitNumFaces_eq M hnr hfb
  have hemit : emitSurface M =
      some ({ emptyCoordsDA M.nvertices with data := D },
        { emptyFacesDA (emitNumFaces M) with data := E }) := by
    unfold emitSurface
    rw [hD, hE]
    rfl
  have hokV : ∀ i, i < M.nvertices →
      get3 { emptyCoordsDA M.nvertices with data := D } i =
        some (D.getD (i * 3) 0, D.getD (i * 3 + 1) 0, D.getD (i * 3 + 2) 0) := by
    intro i hi
    unfold get3
    rw [giftiGet_rowMajor { emptyCoordsDA M.nvertices with data := D } i 0
        rfl rfl rfl hi (by norm_num [emptyCoordsDA]),
      giftiGet_rowMajor { emptyCoordsDA M.nvertices with data := D } i 1
        rfl rfl rfl hi (by norm_num [emptyCoordsDA]),
      giftiGet_rowMajor { emptyCoordsDA M.nvertices with data := D } i 2
        rfl rfl rfl hi (by norm_num [emptyCoordsDA])]
    simp [emptyCoordsDA]
  have hokF : ∀ i, i < emitNumFaces M →
      get3 { emptyFacesDA (emitNumFaces M) with data := E } i =
        some (E.getD (i * 3) 0, E.getD (i * 3 + 1) 0, E.getD (i * 3 + 2) 0) := by
    intro i hi
    unfold get3
    rw [giftiGet_rowMajor { emptyFacesDA (emitNumFaces M) with data := E } i 0
        rfl rfl rfl hi (by norm_num [emptyFacesDA]),
      giftiGet_rowMajor { emptyFacesDA (emitNumFaces M) with data := E } i 1
        rfl rfl rfl hi (by norm_num [emptyFacesDA]),
      giftiGet_rowMajor { emptyFacesDA (emitNumFaces M) with data := E } i 2
        rfl rfl rfl hi (by norm_num [emptyFacesDA])]
    simp [emptyFacesDA]
  have hvts := readTriples_spec { emptyCoordsDA M.nvertices with data := D }
    (fun i => (D.getD (i * 3) 0, D.getD (i * 3 + 1) 0, D.getD (i * 3 + 2) 0))
    M.nvertices hokV
  have hfts := readTriples_spec { emptyFacesDA (emitNumFaces M) with data := E }
    (fun i => (E.getD (i * 3) 0, E.getD (i * 3 + 1) 0, E.getD (i * 3 + 2) 0))
    (emitNumFaces M) hokF
  have h1 : ¬ ((readRowsCols { emptyCoordsDA M.nvertices with data := D }).1 = 0 ∨
      (readRowsCols { emptyCoordsDA M.nvertices with data := D }).2 ≠ 3) := by
    show ¬ (M.nvertices = 0 ∨ (3 : ℕ) ≠ 3)
    omega
  have h2 : ¬ ((readRowsCols { emptyFacesDA (emitNumFaces M) with data := E }).1 = 0 ∨
      (readRowsCols { emptyFacesDA (emitNumFaces M) with data := E }).2 ≠ 3) := by
    show ¬ (emitNumFaces M = 0 ∨ (3 : ℕ) ≠ 3)
    rw [hnf]
    omega
  unfold surfaceRoundTrip ingestSurface
  rw [hemit]
  simp only [Option.some_bind]
  rw [show findGeom [{ emptyCoordsDA M.nvertices with data := D },
    { emptyFacesDA (emitNumFaces M) with data := E }] =
    (some { emptyCoordsDA M.nvertices with data := D },
      some { emptyFacesDA (emitNumFaces M) with data := E }) from rfl]
  simp only [Option.some_bind]
  unfold ingestGeom
  rw [if_neg h1, if_neg h2]
  rw [show (readRowsCols { emptyCoordsDA M.nvertices with data := D }).1 =
    M.nvertices from rfl]
  rw [show (readRowsCols { emptyFacesDA (emitNumFaces M) with data := E }).1 =
    emitNumFaces M from rfl]
  rw [hvts, hfts]
  simp only [Option.some_bind]
  refine ⟨_, rfl, rfl, ?_, ?_, ?_, ?_⟩
  · exact hnf
  · intro v hv
    simp only [getD_range_map _ M.nvertices v hv]
    exact hDchar v hv
  · intro f hf
    show readFaceFn ((List.range (emitNumFaces M)).map
      (fun i => (E.getD (i * 3) 0, E.getD (i * 3 + 1) 0,
        E.getD (i * 3 + 2) 0))) f = M.faces f
    unfold readFaceFn
    rw [getD_range_map _ (emitNumFaces M) f (by omega)]
    obtain ⟨h0, hh1, hh2⟩ := hEchar f hf
    rw [h0, hh1, hh2, ratTrunc_natCast, ratTrunc_natCast, ratTrunc_natCast,
      corner_eta]
  · intro v hv f s
    have hfaces : ∀ g, g < emitNumFaces M →
        readFaceFn ((List.range (emitNumFaces M)).map
          (fun i => (E.getD (i * 3) 0, E.getD (i * 3 + 1) 0,
            E.getD (i * 3 + 2) 0))) g = M.faces g := by
      intro g hg
      unfold readFaceFn
      rw [getD_range_map _ (emitNumFaces M) g hg]
      obtain ⟨h0, hh1, hh2⟩ := hEchar g (by omega)
      rw [h0, hh1, hh2, ratTrunc_natCast, ratTrunc_natCast, ratTrunc_natCast,
        corner_eta]
    rw [deriveTopo_pair_mem (emitNumFaces M) _ (fun g hg => by
      rw [hfaces g hg]
      exact hdist g (by omega)) v f s]
    rw [htopo v hv f s]
    constructor
    · rintro ⟨hfe, hs, hc⟩
      refine ⟨by omega, hs, ?_⟩
      rw [← hfaces f hfe]
      exact hc
    · rintro ⟨hfe, hs, hc⟩
      refine ⟨by omega, hs, ?_⟩
      rw [hfaces f (by omega)]
      exact hc

/-- Helper: the concrete mesh's topology records satisfy the incidence
invariant. -/
theorem mrisC1_topo : ∀ v, v < mrisC1.nvertices → ∀ f s : ℕ,
    ((f, s) ∈ (mrisC1.topoF v).zip (mrisC1.topoN v) ↔
      f < mrisC1.nfaces ∧ s < 3 ∧ corner (mrisC1.faces f) s = v) := by
  intro v hv f s
  have hv4 : v < 4 := hv
  constructor
  · intro hmem
    have hb : f < 2 ∧ s < 3 := by
      interval_cases v <;> simp [mrisC1] at hmem <;> omega
    obtain ⟨hf2, hs3⟩ := hb
    revert hmem
    interval_cases v <;> interval_cases f <;> interval_cases s <;> decide
  · rintro ⟨hf, hs, hc⟩
    have hf2 : f < 2 := hf
    interval_cases v <;> interval_cases f <;> interval_cases s <;>
      revert hc <;> decide

/-- C1 (witness): the round trip evaluated on a concrete 4-vertex,
2-face mesh. -/
theorem surfaceRoundTripReproduces_witness :
    ∃ M2, surfaceRoundTrip mrisC1 = some M2 ∧
      M2.nvertices = mrisC1.nvertices ∧ M2.nfaces = mrisC1.nfaces ∧
      (∀ v, v < mrisC1.nvertices →
        (M2.vertices v).x = (mrisC1.vertices v).x ∧
        (M2.vertices v).y = (mrisC1.vertices v).y ∧
        (M2.vertices v).z = (mrisC1.vertices v).z) ∧
      (∀ f, f < mrisC1.nfaces → M2.faces f = mrisC1.faces f) ∧
      (∀ v, v < mrisC1.nvertices → ∀ f s : ℕ,
        ((f, s) ∈ (M2.topoF v).zip (M2.topoN v) ↔
          (f, s) ∈ (mrisC1.topoF v).zip (mrisC1.topoN v))) :=
  surfaceRoundTripReproduces mrisC1 (by norm_num [mrisC1]) (by norm_num [mrisC1])
    (by decide) (by decide) (by norm_num [mrisC1])
    (by
      intro f hf
      have hf2 : f < 2 := hf
      interval_cases f <;> exact ⟨by decide, by decide, by decide⟩)
    mrisC1_topo

/-- C6: the claim fails on the code: ingesting an RGB_VECTOR row with the
three distinct components (255, 128, 64) produces the annotation packed
from (255, 255, 255) - column 0 is read for red, green AND blue
(gifti.cpp lines 1062-1064) - not the annotation packed from the three
distinct columns, which differs. -/
theorem rgbVectorReadsColumnZeroThrice :
    (ingestRGB mrisC6 rgbC6 1).map (fun m => Vertex.annotation (m.vertices 0)) =
      some (rgbToAnnot 255 255 255) ∧
    rgbToAnnot 255 255 255 ≠ rgbToAnnot 255 128 64 := by
  constructor
  · decide
  · decide

/-- Helper: each stored rgba block has four components. -/
theorem labelTableRGBA_length (p : ℕ × CTE) :
    (labelTableRGBA p.1 p.2).length = 4 := by
  unfold labelTableRGBA
  split_ifs <;> rfl

/-- Helper: the stored rgba block, decided by the entry's own name (the
source tests the stored label, which equals the name exactly when the
name is nonempty, and the empty-name disjunct fires otherwise). -/
theorem labelTableRGBA_cases (idx : ℕ) (e : CTE) :
    ((e.name.length = 0 ∨ e.name = "unknown" ∨ e.name = "Unknown") →
      labelTableRGBA idx e = [0, 0, 0, 0]) ∧
    (¬ (e.name.length = 0 ∨ e.name = "unknown" ∨ e.name = "Unknown") →
      labelTableRGBA idx e = [e.rf, e.gf, e.bf, 1]) := by
  unfold labelTableRGBA labelTableName
  by_cases h0 : e.name.length = 0
  · simp [h0]
  · simp only [h0, if_pos, ne_eq, not_false_iff, false_or]
    constructor
    · intro h
      rw [if_pos (by tauto)]
    · intro h
      rw [if_neg (by tauto)]

/-- Helper: an element of the enumeration is the index paired with the
list element. -/
theorem enum_getD {α : Type} (l : List α) (i : ℕ) (hi : i < l.length)
    (d : ℕ × α) : l.enum.getD i d = (i, l.getD i d.2) := by
  have h1 : i < l.enum.length := by rw [List.enum_length]; exact hi
  rw [List.getD_eq_getElem _ _ h1, List.getElem_enum,
    List.getD_eq_getElem l d.2 hi]

/-- Helper: an element of a map over the enumeration. -/
theorem enum_map_getD {α β : Type} (g : ℕ × α → β) (l : List α) (i : ℕ)
    (hi : i < l.length) (d : β) (da : α) :
    (l.enum.map g).getD i d = g (i, l.getD i da) := by
  have h1 : i < (l.enum.map g).length := by
    rw [List.length_map, List.enum_length]; exact hi
  rw [List.getD_eq_getElem _ _ h1, List.getElem_map, List.getElem_enum]
  rw [List.getD_eq_getElem l da hi]

/-- Helper: element (4*i + j) of a flat concatenation of four-element
blocks is element j of block i. -/
theorem flatMap_four_getD {α : Type} (f : α → List ℚ)
    (hf : ∀ a, (f a).length = 4) (l : List α) :
    ∀ (i j : ℕ) (d : α), i < l.length → j < 4 →
      (l.flatMap f).getD (4 * i + j) 0 = (f (l.getD i d)).getD j 0 := by
  induction l with
  | nil => intro i j d hi hj; exact absurd hi (by simp)
  | cons a l ih =>
    intro i j d hi hj
    rw [List.flatMap_cons]
    cases i with
    | zero =>
      rw [List.getD_eq_getElem?_getD, Nat.mul_zero, Nat.zero_add,
        List.getElem?_append, if_pos (by rw [hf]; omega),
        ← List.getD_eq_getElem?_getD, List.getD_cons_zero]
    | succ i =>
      have harith : 4 * (i + 1) + j = (f a).length + (4 * i + j) := by
        rw [hf]; ring
      rw [List.getD_eq_getElem?_getD, harith,
        List.getElem?_append_right (by omega), Nat.add_sub_cancel_left,
        ← List.getD_eq_getElem?_getD, List.getD_cons_succ]
      exact ih i j d (by simpa using hi) hj

/-- C9: label emission builds a LabelTable in which every entry's key is
the entry's table index (not the packed annotation); an entry with an
empty name is stored under the synthesized name unknown_<i>; every entry
whose name is empty or literally "unknown" or "Unknown" (case-sensitive,
both forms) receives the fully transparent colour (0,0,0,0); every other
entry receives its table colour with alpha 1 (opaque). -/
theorem labelEmissionTable (entries : List CTE) (hne : entries.length ≠ 0) :
    ∃ t, buildLabelTable entries = some t ∧
      t.length = entries.length ∧
      ∀ idx, idx < entries.length →
        t.key.getD idx 0 = (idx : ℤ) ∧
        t.label.getD idx "" =
          (if (entries.getD idx { name := "" }).name.length ≠ 0 then
            (entries.getD idx { name := "" }).name
           else "unknown_" ++ toString idx) ∧
        (((entries.getD idx { name := "" }).name.length = 0 ∨
          (entries.getD idx { name := "" }).name = "unknown" ∨
          (entries.getD idx { name := "" }).name = "Unknown") →
          [t.rgba.getD (4 * idx) 0, t.rgba.getD (4 * idx + 1) 0,
           t.rgba.getD (4 * idx + 2) 0, t.rgba.getD (4 * idx + 3) 0] =
            [0, 0, 0, 0]) ∧
        (¬ ((entries.getD idx { name := "" }).name.length = 0 ∨
          (entries.getD idx { name := "" }).name = "unknown" ∨
          (entries.getD idx { name := "" }).name = "Unknown") →
          [t.rgba.getD (4 * idx) 0, t.rgba.getD (4 * idx + 1) 0,
           t.rgba.getD (4 * idx + 2) 0, t.rgba.getD (4 * idx + 3) 0] =
            [(entries.getD idx { name := "" }).rf,
             (entries.getD idx { name := "" }).gf,
             (entries.getD idx { name := "" }).bf, 1]) := by
  refine ⟨_, by rw [buildLabelTable, if_neg hne], rfl, ?_⟩
  intro idx hidx
  have hrgba : ∀ j, j < 4 →
      (entries.enum.flatMap (fun p => labelTableRGBA p.1 p.2)).getD (4 * idx + j) 0 =
        (labelTableRGBA idx (entries.getD idx { name := "" })).getD j 0 := by
    intro j hj
    rw [flatMap_four_getD (fun p => labelTableRGBA p.1 p.2) labelTableRGBA_length
      entries.enum idx j (idx, { name := "" })
      (by rw [List.enum_length]; exact hidx) hj]
    rw [enum_getD entries idx hidx]
  have hcases := labelTableRGBA_cases idx (entries.getD idx { name := "" })
  refine ⟨?_, ?_, ?_, ?_⟩
  · rw [enum_map_getD (fun p => ((p.1 : ℕ) : ℤ)) entries idx hidx 0 { name := "" }]
  · rw [enum_map_getD (fun p => labelTableName p.1 p.2) entries idx hidx ""
      { name := "" }]
    rfl
  · intro h
    have h0 := hrgba 0 (by omega)
    have h1 := hrgba 1 (by omega)
    have h2 := hrgba 2 (by omega)
    have h3 := hrgba 3 (by omega)
    rw [Nat.add_zero] at h0
    rw [hcases.1 h] at h0 h1 h2 h3
    rw [h0, h1, h2, h3]
    rfl
  · intro h
    have h0 := hrgba 0 (by omega)
    have h1 := hrgba 1 (by omega)
    have h2 := hrgba 2 (by omega)
    have h3 := hrgba 3 (by omega)
    rw [Nat.add_zero] at h0
    rw [hcases.2 h] at h0 h1 h2 h3
    rw [h0, h1, h2, h3]
    rfl

/-- C9 (witness): the label-table construction evaluated on the concrete
three-entry colour table ("unknown", "A", empty name). -/
theorem labelEmissionTable_witness :
    ∃ t, buildLabelTable ctabC9 = some t ∧
      t.length = ctabC9.length ∧
      ∀ idx, idx < ctabC9.length →
        t.key.getD idx 0 = (idx : ℤ) ∧
        t.label.getD idx "" =
          (if (ctabC9.getD idx { name := "" }).name.length ≠ 0 then
            (ctabC9.getD idx { name := "" }).name
           else "unknown_" ++ toString idx) ∧
        (((ctabC9.getD idx { name := "" }).name.length = 0 ∨
          (ctabC9.getD idx { name := "" }).name = "unknown" ∨
          (ctabC9.getD idx { name := "" }).name = "Unknown") →
          [t.rgba.getD (4 * idx) 0, t.rgba.getD (4 * idx + 1) 0,
           t.rgba.getD (4 * idx + 2) 0, t.rgba.getD (4 * idx + 3) 0] =
            [0, 0, 0, 0]) ∧
        (¬ ((ctabC9.getD idx { name := "" }).name.length = 0 ∨
          (ctabC9.getD idx { name := "" }).name = "unknown" ∨
          (ctabC9.getD idx { name := "" }).name = "Unknown") →
          [t.rgba.getD (4 * idx) 0, t.rgba.getD (4 * idx + 1) 0,
           t.rgba.getD (4 * idx + 2) 0, t.rgba.getD (4 * idx + 3) 0] =
            [(ctabC9.getD idx { name := "" }).rf,
             (ctabC9.getD idx { name := "" }).gf,
             (ctabC9.getD idx { name := "" }).bf, 1]) :=
  labelEmissionTable ctabC9 (by decide)

/-- C7 (witness): the amended kind dispatch evaluated on a concrete
row-major 1x1 float64 array (get succeeds, set is an UnsupportedType
no-op) via the int32 and float64 clauses at concrete inputs. -/
theorem typedAccessorKindDispatch_witness :
    giftiGet (⟨.float64, .rowMajor, 2, 1, 1, .intentNone, [3]⟩ : DataArray) 0 0 = .ok 3 ∧
    giftiSet (⟨.float64, .rowMajor, 2, 1, 1, .intentNone, [3]⟩ : DataArray) 0 0 5 =
      .ok ⟨⟨.float64, .rowMajor, 2, 1, 1, .intentNone, [3]⟩, some .unsupportedType⟩ := by
  have h := typedAccessorKindDispatch (⟨.float64, .rowMajor, 2, 1, 1, .intentNone, [3]⟩ : DataArray)
    0 0 5 rfl rfl (by decide) (by decide)
  exact ⟨h.1 (by decide), h.2.2.2.1 (Or.inl rfl)⟩

end Gifti
